import Mathlib

/-!
Verification of the Zabbix trapper-protocol client
(`zabbixapi/zabbix_session.py`): frame codec, session operations and the
sender/collector, shallowly embedded in Lean.

Conventions of the embedding:
* Python byte strings are lists of naturals (`List Nat`), each element a
  byte value.
* Python text strings are lists of Unicode scalar values (`List Char`).
* JSON-serializable Python values are the inductive `PyJson`; numbers are
  modelled as integers (the repository never serializes floats), dicts as
  ordered association lists (insertion order, as in CPython), which is
  exactly the order `json.dumps` emits.
* The standard-library collaborators `json.dumps(..., ensure_ascii=False)`,
  `json.loads`, UTF-8 `encode`/`decode`, `struct.pack`/`unpack` with format
  `"<4sBQ"`, and the compiled `RESPONSE_PATTERN` regular expression are
  modelled as executable Lean functions mirroring their documented CPython
  behaviour on the value shapes this client produces.
* Fallible operations return `Except SessionError` or `Option`; a raised
  Python exception corresponds to an `error` value.
* The one-shot socket read in `ZabbixSession.request` is passed in as an
  explicit argument (the byte string that `socket.recv` returned), and the
  current time (`time.time()`) is an explicit `now` argument.
-/

/-- A JSON-serializable Python value: `None`, `bool`, `int`, `str`,
`list`, `dict` (string keys, insertion-ordered). -/
inductive PyJson where
  | null
  | bool (b : Bool)
  | int (n : Int)
  | str (s : List Char)
  | arr (xs : List PyJson)
  | obj (kvs : List (List Char × PyJson))

/-- First-match lookup in an ordered association list, as for a Python
dict built without duplicate keys. -/
def jlookup (k : List Char) : List (List Char × PyJson) → Option PyJson
  | [] => none
  | (k', v) :: kvs => if k' = k then some v else jlookup k kvs

/-- The character for a decimal digit value (0-9). -/
def digitChar (d : Nat) : Char := Char.ofNat (48 + d)

/-- Lowercase hexadecimal digit character for a value 0-15, as produced by
CPython's `\uXXXX` escapes. -/
def hexDigit (d : Nat) : Char :=
  if d < 10 then Char.ofNat (48 + d) else Char.ofNat (87 + d)

/-- Numeric value of a hexadecimal digit character, accepting both cases,
as in CPython's `\uXXXX` scanning. -/
def hexVal (c : Char) : Option Nat :=
  if 48 ≤ c.toNat ∧ c.toNat ≤ 57 then some (c.toNat - 48)
  else if 97 ≤ c.toNat ∧ c.toNat ≤ 102 then some (c.toNat - 87)
  else if 65 ≤ c.toNat ∧ c.toNat ≤ 70 then some (c.toNat - 55)
  else none

/-- Decimal digits of `n`, most significant first; fuel-indexed so that the
recursion is structural (any `fuel > n` gives the true digit string). -/
def natReprAux : Nat → Nat → List Char
  | 0, _ => []
  | fuel + 1, n =>
    if n < 10 then [digitChar n]
    else natReprAux fuel (n / 10) ++ [digitChar (n % 10)]

/-- Decimal representation of a natural number, as Python `repr`. -/
def natRepr (n : Nat) : List Char := natReprAux (n + 1) n

/-- Decimal representation of a Python int, as emitted by `json.dumps`. -/
def intRepr (n : Int) : List Char :=
  if n < 0 then '-' :: natRepr n.natAbs else natRepr n.natAbs

/-- CPython `json` string escaping with `ensure_ascii=False`: `"` and `\`
are backslash-escaped, control characters below U+0020 use the short
escapes `\b \t \n \f \r` or `\u00xx`, every other character (including
non-ASCII) passes through literally. -/
def escapeChar (c : Char) : List Char :=
  if c = '"' then ['\\', '"']
  else if c = '\\' then ['\\', '\\']
  else if 32 ≤ c.toNat then [c]
  else if c.toNat = 8 then ['\\', 'b']
  else if c.toNat = 9 then ['\\', 't']
  else if c.toNat = 10 then ['\\', 'n']
  else if c.toNat = 12 then ['\\', 'f']
  else if c.toNat = 13 then ['\\', 'r']
  else ['\\', 'u', '0', '0', hexDigit (c.toNat / 16), hexDigit (c.toNat % 16)]

/-- Escape every character of a string body. -/
def escList : List Char → List Char
  | [] => []
  | c :: cs => escapeChar c ++ escList cs

namespace Json

mutual

/-- `json.dumps(v, ensure_ascii=False)` with CPython's default separators
`", "` and `": "`, as called by `ZabbixSession.pack_json`. -/
def dumps : PyJson → List Char
  | .null => "null".data
  | .bool true => "true".data
  | .bool false => "false".data
  | .int n => intRepr n
  | .str s => '"' :: (escList s ++ ['"'])
  | .arr xs => '[' :: (dumpItems xs ++ [']'])
  | .obj kvs => '{' :: (dumpMembers kvs ++ ['}'])

/-- Comma-separated dump of array elements. -/
def dumpItems : List PyJson → List Char
  | [] => []
  | x :: xs => dumps x ++ dumpRest xs

/-- Continuation of `dumpItems` after the first element. -/
def dumpRest : List PyJson → List Char
  | [] => []
  | x :: xs => ',' :: ' ' :: (dumps x ++ dumpRest xs)

/-- Comma-separated dump of object members, each as `"key": value`. -/
def dumpMembers : List (List Char × PyJson) → List Char
  | [] => []
  | (k, v) :: kvs =>
    '"' :: (escList k ++ '"' :: ':' :: ' ' :: (dumps v ++ dumpMembersRest kvs))

/-- Continuation of `dumpMembers` after the first member. -/
def dumpMembersRest : List (List Char × PyJson) → List Char
  | [] => []
  | (k, v) :: kvs =>
    ',' :: ' ' :: '"' :: (escList k ++ '"' :: ':' :: ' ' :: (dumps v ++ dumpMembersRest kvs))

end

end Json

/-- UTF-8 encoding of one Unicode scalar value (1-4 bytes). -/
def utf8EncodeChar (c : Char) : List Nat :=
  let n := c.toNat
  if n < 128 then [n]
  else if n < 2048 then [192 + n / 64, 128 + n % 64]
  else if n < 65536 then [224 + n / 4096, 128 + n / 64 % 64, 128 + n % 64]
  else [240 + n / 262144, 128 + n / 4096 % 64, 128 + n / 64 % 64, 128 + n % 64]

/-- UTF-8 encoding of a string, as Python `str.encode("utf-8")`. -/
def utf8Encode : List Char → List Nat
  | [] => []
  | c :: cs => utf8EncodeChar c ++ utf8Encode cs

/-- Strict decoding of one UTF-8-encoded scalar value at the head of a
byte string: rejects overlong forms, surrogates, stray continuation bytes
and truncated sequences, as Python's strict `utf-8` codec. -/
def utf8DecodeChar : List Nat → Option (Char × List Nat)
  | [] => none
  | b0 :: rest =>
    if b0 < 128 then some (Char.ofNat b0, rest)
    else if 194 ≤ b0 ∧ b0 ≤ 223 then
      match rest with
      | b1 :: rest2 =>
        if 128 ≤ b1 ∧ b1 ≤ 191 then
          some (Char.ofNat ((b0 - 192) * 64 + (b1 - 128)), rest2)
        else none
      | [] => none
    else if 224 ≤ b0 ∧ b0 ≤ 239 then
      match rest with
      | b1 :: b2 :: rest2 =>
        if 128 ≤ b1 ∧ b1 ≤ 191 ∧ 128 ≤ b2 ∧ b2 ≤ 191 then
          if 2048 ≤ (b0 - 224) * 4096 + (b1 - 128) * 64 + (b2 - 128) ∧
              ((b0 - 224) * 4096 + (b1 - 128) * 64 + (b2 - 128) < 55296 ∨
               57343 < (b0 - 224) * 4096 + (b1 - 128) * 64 + (b2 - 128)) then
            some (Char.ofNat ((b0 - 224) * 4096 + (b1 - 128) * 64 + (b2 - 128)), rest2)
          else none
        else none
      | _ => none
    else if 240 ≤ b0 ∧ b0 ≤ 244 then
      match rest with
      | b1 :: b2 :: b3 :: rest2 =>
        if 128 ≤ b1 ∧ b1 ≤ 191 ∧ 128 ≤ b2 ∧ b2 ≤ 191 ∧ 128 ≤ b3 ∧ b3 ≤ 191 then
          if 65536 ≤ (b0 - 240) * 262144 + (b1 - 128) * 4096 + (b2 - 128) * 64 + (b3 - 128) ∧
              (b0 - 240) * 262144 + (b1 - 128) * 4096 + (b2 - 128) * 64 + (b3 - 128) ≤ 1114111 then
            some (Char.ofNat
              ((b0 - 240) * 262144 + (b1 - 128) * 4096 + (b2 - 128) * 64 + (b3 - 128)), rest2)
          else none
        else none
      | _ => none
    else none

/-- Fuel-indexed decoding loop; every step consumes at least one byte, so
any `fuel` exceeding the input length computes the true result. -/
def utf8DecodeLoop : Nat → List Nat → Option (List Char)
  | 0, _ => none
  | _ + 1, [] => some []
  | fuel + 1, b :: bs =>
    match utf8DecodeChar (b :: bs) with
    | none => none
    | some (c, rest) => (utf8DecodeLoop fuel rest).map (fun cs => c :: cs)

/-- Strict UTF-8 decoding of a byte string, as Python
`bytes.decode("utf-8")` (`none` corresponds to a raised
`UnicodeDecodeError`). -/
def utf8Decode (b : List Nat) : Option (List Char) :=
  utf8DecodeLoop (b.length + 1) b

/-- JSON insignificant whitespace, as CPython's `json` module
(`[ \t\n\r]`). -/
def isJsonWs (c : Char) : Bool :=
  c = ' ' ∨ c = '\t' ∨ c = '\n' ∨ c = '\r'

/-- Skip insignificant whitespace. -/
def skipWs : List Char → List Char
  | [] => []
  | c :: cs => if isJsonWs c then skipWs cs else c :: cs

namespace Json

/-- The JSON single-character escape table of CPython's `scanstring`. -/
def escDecode (e : Char) : Option Char :=
  if e = '"' then some '"'
  else if e = '\\' then some '\\'
  else if e = '/' then some '/'
  else if e = 'b' then some (Char.ofNat 8)
  else if e = 'f' then some (Char.ofNat 12)
  else if e = 'n' then some (Char.ofNat 10)
  else if e = 'r' then some (Char.ofNat 13)
  else if e = 't' then some (Char.ofNat 9)
  else none

/-- Value of four hexadecimal digit characters. -/
def hexVal4 (h1 h2 h3 h4 : Char) : Option Nat :=
  match hexVal h1, hexVal h2, hexVal h3, hexVal h4 with
  | some d1, some d2, some d3, some d4 => some (d1 * 4096 + d2 * 256 + d3 * 16 + d4)
  | _, _, _, _ => none

/-- Decode one escape sequence after the backslash: either `\uXXXX` (with
surrogate-pair completion, and rejection of a lone surrogate, since the
embedding restricts strings to Unicode scalar values) or a single-character
escape; returns the decoded character and the rest of the input. -/
def parseEscape : List Char → Option (Char × List Char)
  | [] => none
  | e :: rest2 =>
    if e = 'u' then
      match rest2 with
      | h1 :: h2 :: h3 :: h4 :: r =>
        (match hexVal4 h1 h2 h3 h4 with
         | none => none
         | some n =>
           if n < 55296 ∨ 57343 < n then some (Char.ofNat n, r)
           else if n ≤ 56319 then
             match r with
             | b2 :: u2 :: g1 :: g2 :: g3 :: g4 :: r2 =>
               if b2 = '\\' ∧ u2 = 'u' then
                 match hexVal4 g1 g2 g3 g4 with
                 | some m =>
                   if 56320 ≤ m ∧ m ≤ 57343 then
                     some (Char.ofNat (65536 + (n - 55296) * 1024 + (m - 56320)), r2)
                   else none
                 | none => none
               else none
             | _ => none
           else none)
      | _ => none
    else
      match escDecode e with
      | some d => some (d, rest2)
      | none => none

/-- Parse the body of a JSON string after the opening quote, returning the
decoded string and the input following the closing quote.  Mirrors
CPython's `scanstring` in strict mode: raw control characters below U+0020
are rejected, and the escapes are those of `parseEscape`.  Fuel-indexed;
every step consumes at least one character, so any `fuel` exceeding the
input length computes the true result. -/
def parseStringBody : Nat → List Char → Option (List Char × List Char)
  | 0, _ => none
  | fuel + 1, s =>
    match s with
    | [] => none
    | c :: rest =>
      if c = '"' then some ([], rest)
      else if c = '\\' then
        match parseEscape rest with
        | some (d, r) => (parseStringBody fuel r).map (fun p => (d :: p.1, p.2))
        | none => none
      else if c.toNat < 32 then none
      else (parseStringBody fuel rest).map (fun p => (c :: p.1, p.2))

/-- Value of a run of decimal digit characters, most significant first. -/
def digitsToNat (ds : List Char) : Nat :=
  ds.foldl (fun a c => a * 10 + (c.toNat - 48)) 0

/-- Parse an unsigned JSON integer: either a single `0` (CPython's number
regular expression `0|[1-9]\d*` stops after a leading zero) or a maximal
run of digits.  A following `.`, `e` or `E` would start a float, which the
embedding does not model, so the parse is rejected there. -/
def parseNumAux (s : List Char) : Option (Nat × List Char) :=
  match s with
  | [] => none
  | c :: rest =>
    if c = '0' then
      match rest with
      | c' :: _ => if c' = '.' ∨ c' = 'e' ∨ c' = 'E' then none else some (0, rest)
      | [] => some (0, [])
    else if c.isDigit then
      let ds := (c :: rest).takeWhile Char.isDigit
      let tail := (c :: rest).dropWhile Char.isDigit
      match tail with
      | c' :: _ =>
        if c' = '.' ∨ c' = 'e' ∨ c' = 'E' then none else some (digitsToNat ds, tail)
      | [] => some (digitsToNat ds, [])
    else none

/-- Parse a JSON number (integer in this embedding, optional sign). -/
def parseNumber : List Char → Option (PyJson × List Char)
  | [] => none
  | c :: rest =>
    if c = '-' then (parseNumAux rest).map (fun p => (.int (-(p.1 : Int)), p.2))
    else (parseNumAux (c :: rest)).map (fun p => (.int (p.1 : Int), p.2))

mutual

/-- Fuel-indexed recursive-descent JSON value parser mirroring CPython's
`json` scanner: skips leading whitespace, then dispatches on the first
character (`null`, `true`, `false`, string, array, object, number). -/
def parseValue : Nat → List Char → Option (PyJson × List Char)
  | 0, _ => none
  | Nat.succ f, s =>
    match skipWs s with
    | 'n' :: 'u' :: 'l' :: 'l' :: rest => some (.null, rest)
    | 't' :: 'r' :: 'u' :: 'e' :: rest => some (.bool true, rest)
    | 'f' :: 'a' :: 'l' :: 's' :: 'e' :: rest => some (.bool false, rest)
    | '"' :: rest => (parseStringBody (rest.length + 1) rest).map (fun p => (.str p.1, p.2))
    | '[' :: rest =>
      (match skipWs rest with
       | [] => none
       | c :: t =>
         if c = ']' then some (.arr [], t)
         else (parseItems f (c :: t)).map (fun p => (.arr p.1, p.2)))
    | '{' :: rest =>
      (match skipWs rest with
       | [] => none
       | c :: t =>
         if c = '}' then some (.obj [], t)
         else (parseMembers f (c :: t)).map (fun p => (.obj p.1, p.2)))
    | s' => parseNumber s'

/-- Parse the elements of a non-empty JSON array, up to and including the
closing bracket. -/
def parseItems : Nat → List Char → Option (List PyJson × List Char)
  | 0, _ => none
  | Nat.succ f, s =>
    match parseValue f s with
    | none => none
    | some (v, s1) =>
      match skipWs s1 with
      | [] => none
      | c :: t =>
        if c = ']' then some ([v], t)
        else if c = ',' then
          match parseItems f t with
          | none => none
          | some (xs, r) => some (v :: xs, r)
        else none

/-- Parse the members of a non-empty JSON object, up to and including the
closing brace. -/
def parseMembers : Nat → List Char → Option (List (List Char × PyJson) × List Char)
  | 0, _ => none
  | Nat.succ f, s =>
    match skipWs s with
    | [] => none
    | c0 :: rest =>
      if c0 = '"' then
        match parseStringBody (rest.length + 1) rest with
        | none => none
        | some (k, s1) =>
          match skipWs s1 with
          | [] => none
          | c1 :: s2 =>
            if c1 = ':' then
              match parseValue f s2 with
              | none => none
              | some (v, s3) =>
                match skipWs s3 with
                | [] => none
                | c2 :: s4 =>
                  if c2 = '}' then some ([(k, v)], s4)
                  else if c2 = ',' then
                    match parseMembers f s4 with
                    | none => none
                    | some (ms, r) => some ((k, v) :: ms, r)
                  else none
            else none
      else none

end

/-- `json.loads`: parse one JSON document; trailing non-whitespace is an
error ("Extra data").  The fuel `2 * length + 1` is an upper bound on the
recursion depth of the scanner on any input (each two nested calls consume
at least one character). -/
def loads (s : List Char) : Option PyJson :=
  match parseValue (2 * s.length + 1) s with
  | some (v, r) => if skipWs r = [] then some v else none
  | none => none

end Json

/-- The errors a session operation can surface; each constructor stands
for one Python exception class raised by the code under test:
`struct.error` from packing, `RequestError` on a zero-byte read,
`struct.error` from header unpacking (format error), `UnicodeDecodeError`,
`json.JSONDecodeError` (parse error), `KeyError`, `AttributeError` and
`TypeError`. -/
inductive SessionError where
  | structError
  | requestError
  | formatError
  | decodeError
  | jsonError
  | keyError
  | attributeError
  | typeError
deriving DecidableEq

/-- The `ZabbixSessionHeader` namedtuple: raw 4-byte magic, version byte
and payload byte length. -/
structure ZabbixSessionHeader where
  header : List Nat
  version : Nat
  length : Nat
deriving DecidableEq

/-- The `ZabbixSessionResponse` namedtuple. -/
structure ZabbixSessionResponse where
  header : ZabbixSessionHeader
  data : PyJson

/-- The `ZabbixSenderResponse` namedtuple; the four counters are the
captured substrings of the info pattern (`None` when the pattern did not
match). -/
structure ZabbixSenderResponse where
  header : ZabbixSessionHeader
  response : Option PyJson
  data : PyJson
  processed : Option (List Char)
  failed : Option (List Char)
  total : Option (List Char)
  seconds_spent : Option (List Char)

/-- The `ZabbixCheckItem` namedtuple; every field is the result of
`dict.get` and hence `None` when absent. -/
structure ZabbixCheckItem where
  key : Option PyJson
  delay : Option PyJson
  lastlogsize : Option PyJson
  mtime : Option PyJson

/-- The `ZabbixCheckResponse` namedtuple. -/
structure ZabbixCheckResponse where
  header : ZabbixSessionHeader
  response : Option PyJson
  data : PyJson
  items : List ZabbixCheckItem

/-- `get_time`: `ts = ts or time.time()` followed by `int(ts)`.  A falsy
timestamp (absent, or the integer 0) is replaced by the current time,
which is passed in explicitly as `now`. -/
def get_time (ts : Option Int) (now : Int) : Int :=
  match ts with
  | none => now
  | some t => if t = 0 then now else t

namespace ZabbixSession

/-- `ZabbixSession.HEADER`, the byte string `b"ZBXD"`. -/
def HEADER : List Nat := [90, 66, 88, 68]

/-- `ZabbixSession.VERSION`. -/
def VERSION : Nat := 1

/-- `ZabbixSession.HEADER_OFFSET = struct.calcsize("<4sBQ") = 13`. -/
def HEADER_OFFSET : Nat := 13

/-- The eight little-endian bytes of an unsigned 64-bit integer, as
`struct.pack("<Q", n)`. -/
def le64 (n : Nat) : List Nat :=
  [n % 256, n / 256 % 256, n / 65536 % 256, n / 16777216 % 256,
   n / 4294967296 % 256, n / 1099511627776 % 256,
   n / 281474976710656 % 256, n / 72057594037927936 % 256]

/-- The value of eight little-endian bytes, as `struct.unpack("<Q", b)`. -/
def decodeLE64 (b : List Nat) : Nat :=
  b.foldr (fun x acc => x + 256 * acc) 0

/-- `ZabbixSession.pack_header`: `struct.pack("<4sBQ", header, version,
length)`.  The `4s` field is padded or truncated to 4 bytes; `B` and `Q`
raise `struct.error` when out of range, modelled by `none`. -/
def pack_header (h : ZabbixSessionHeader) : Option (List Nat) :=
  if h.version ≤ 255 ∧ h.length < 18446744073709551616 then
    some ((h.header.take 4 ++ List.replicate (4 - h.header.length) 0)
      ++ h.version :: le64 h.length)
  else none

/-- `ZabbixSession.pack_json`: serialize to JSON without ASCII escaping,
UTF-8-encode, and prepend the packed header whose length field is the byte
length of the payload. -/
def pack_json (v : PyJson) : Option (List Nat) :=
  let payload := utf8Encode (Json.dumps v)
  (pack_header { header := HEADER, version := VERSION, length := payload.length }).map
    (fun hb => hb ++ payload)

/-- The `struct.unpack("<4sBQ", response[:13])` step of `unpack_json`:
fails (`struct.error`, a format error) when fewer than 13 bytes are
available; otherwise splits the 13 header bytes by layout.  The magic
bytes are extracted, not compared. -/
def unpack_header (b : List Nat) : Except SessionError ZabbixSessionHeader :=
  if b.length < 13 then .error .formatError
  else .ok { header := b.take 4, version := b.getD 4 0,
             length := decodeLE64 ((b.drop 5).take 8) }

/-- `ZabbixSession.unpack_json`: parse the 13-byte header, slice
`response[13 : 13 + length]` (shorter input simply yields the available
bytes), UTF-8-decode and JSON-parse the slice. -/
def unpack_json (b : List Nat) : Except SessionError (ZabbixSessionHeader × PyJson) :=
  match unpack_header b with
  | .error e => .error e
  | .ok h =>
    match utf8Decode ((b.drop 13).take h.length) with
    | none => .error .decodeError
    | some cs =>
      match Json.loads cs with
      | none => .error .jsonError
      | some v => .ok (h, v)

/-- `ZabbixSession.request`: send `pack_json data` (packing may raise
`struct.error`), perform one bounded `recv` whose result is the `recv`
argument, raise `RequestError` on a zero-byte read, and decode the reply
with `unpack_json`. -/
def request (data : PyJson) (recv : List Nat) : Except SessionError ZabbixSessionResponse :=
  match pack_json data with
  | none => .error .structError
  | some _ =>
    if recv = [] then .error .requestError
    else
      match unpack_json recv with
      | .error e => .error e
      | .ok (h, d) => .ok { header := h, data := d }

/-- Match one literal character sequence at the head of the input. -/
def eatLit : List Char → List Char → Option (List Char)
  | [], s => some s
  | c :: cs, d :: s => if d = c then eatLit cs s else none
  | _ :: _, [] => none

/-- Regular-expression whitespace `\s` over the ASCII range, as matched by
`RESPONSE_PATTERN`. -/
def isReWs (c : Char) : Bool :=
  c = ' ' ∨ c = '\t' ∨ c = '\n' ∨ c = '\r' ∨ c = Char.ofNat 11 ∨ c = Char.ofNat 12

/-- The four captured groups of `RESPONSE_PATTERN`. -/
structure InfoGroups where
  processed : List Char
  failed : List Char
  total : List Char
  seconds_spent : List Char

/-- Match `\s*(\d+)\s*;` — the pattern fragment after each of the first
three field labels (greedy repetition followed by a disjoint literal needs
no backtracking). -/
def eatCount (s : List Char) : Option (List Char × List Char) :=
  let s1 := s.dropWhile isReWs
  let ds := s1.takeWhile Char.isDigit
  if ds = [] then none
  else
    match (s1.dropWhile Char.isDigit).dropWhile isReWs with
    | ';' :: r => some (ds, r)
    | _ => none

/-- Match the whole `RESPONSE_PATTERN` at the current position:
`processed:\s*(\d+)\s*;\s*failed:\s*(\d+)\s*;\s*total:\s*(\d+)\s*;\s*`
`seconds spent:\s*([\d\.]+)\s*`. -/
def matchInfoAt (s : List Char) : Option InfoGroups :=
  match eatLit (String.data ("processed:")) s with
  | none => none
  | some s =>
    match eatCount s with
    | none => none
    | some (p, s) =>
      match eatLit (String.data ("failed:")) (s.dropWhile isReWs) with
      | none => none
      | some s =>
        match eatCount s with
        | none => none
        | some (fl, s) =>
          match eatLit (String.data ("total:")) (s.dropWhile isReWs) with
          | none => none
          | some s =>
            match eatCount s with
            | none => none
            | some (t, s) =>
              match eatLit (String.data ("seconds spent:")) (s.dropWhile isReWs) with
              | none => none
              | some s =>
                let s1 := s.dropWhile isReWs
                let ds := s1.takeWhile (fun c => c.isDigit ∨ c = '.')
                if ds = [] then none
                else some { processed := p, failed := fl, total := t, seconds_spent := ds }

/-- `RESPONSE_PATTERN.search`: try a match at every position, left to
right. -/
def searchInfo (s : List Char) : Option InfoGroups :=
  match matchInfoAt s with
  | some g => some g
  | none =>
    match s with
    | [] => none
    | _ :: t => searchInfo t

/-- The response-side half of `ZabbixSession.send_data`, applied to the
decoded payload: `data.get("info", "")` (an `AttributeError` when the
payload is not a dict, a `TypeError` when the info field is not a
string), search the info pattern, and build the `ZabbixSenderResponse`
with the captured groups (or `None` each, when there was no match). -/
def send_data_parse (h : ZabbixSessionHeader) (payload : PyJson) :
    Except SessionError ZabbixSenderResponse :=
  match payload with
  | .obj kvs =>
    let build : List Char → ZabbixSenderResponse := fun infoStr =>
      let g := searchInfo infoStr
      { header := h, response := jlookup (String.data ("response")) kvs,
        data := .obj kvs,
        processed := g.map InfoGroups.processed,
        failed := g.map InfoGroups.failed,
        total := g.map InfoGroups.total,
        seconds_spent := g.map InfoGroups.seconds_spent }
    match jlookup (String.data ("info")) kvs with
    | some (.str infoStr) => .ok (build infoStr)
    | none => .ok (build [])
    | some _ => .error .typeError
  | _ => .error .attributeError

/-- The request value built by `ZabbixSession.send_data`. -/
def send_data_request (points : List PyJson) (clock : Int) : PyJson :=
  .obj [(String.data ("request"), .str (String.data ("sender data"))),
        (String.data ("data"), .arr points),
        (String.data ("clock"), .int clock)]

/-- `ZabbixSession.send_data`: one request round trip with the sender-data
payload and clock `get_time ts now`, then `send_data_parse` on the decoded
reply. -/
def send_data (points : List PyJson) (ts : Option Int) (now : Int) (recv : List Nat) :
    Except SessionError ZabbixSenderResponse :=
  match request (send_data_request points (get_time ts now)) recv with
  | .error e => .error e
  | .ok r => send_data_parse r.header r.data

/-- `ZabbixCheckItem` built from one element of `data["data"]` via
`dict.get`; a non-dict element raises `AttributeError`. -/
def check_item_of (e : PyJson) : Except SessionError ZabbixCheckItem :=
  match e with
  | .obj m =>
    .ok { key := jlookup (String.data ("key")) m,
          delay := jlookup (String.data ("delay")) m,
          lastlogsize := jlookup (String.data ("lastlogsize")) m,
          mtime := jlookup (String.data ("mtime")) m }
  | _ => .error .attributeError

/-- Convert every element in order (the list comprehension of
`get_active_checks`). -/
def items_of : List PyJson → Except SessionError (List ZabbixCheckItem)
  | [] => .ok []
  | e :: es =>
    match check_item_of e with
    | .error err => .error err
    | .ok i =>
      match items_of es with
      | .error err => .error err
      | .ok is => .ok (i :: is)

/-- Python iteration over a decoded JSON value, as in
`for i in data["data"]`: lists yield their elements, strings their
characters (one-character strings), dicts their keys; other values raise
`TypeError`. -/
def iter_elems (v : PyJson) : Except SessionError (List PyJson) :=
  match v with
  | .arr xs => .ok xs
  | .str cs => .ok (cs.map (fun c => .str [c]))
  | .obj kvs => .ok (kvs.map (fun kv => .str kv.1))
  | _ => .error .typeError

/-- The response-side half of `ZabbixSession.get_active_checks`, applied
to the decoded payload: `data.get("response")` needs a dict
(`AttributeError` otherwise), `data["data"]` raises `KeyError` when the
key is absent, and each element is converted with `check_item_of`. -/
def get_active_checks_parse (h : ZabbixSessionHeader) (payload : PyJson) :
    Except SessionError ZabbixCheckResponse :=
  match payload with
  | .obj kvs =>
    match jlookup (String.data ("data")) kvs with
    | none => .error .keyError
    | some d =>
      match iter_elems d with
      | .error e => .error e
      | .ok elems =>
        match items_of elems with
        | .error e => .error e
        | .ok items =>
          .ok { header := h, response := jlookup (String.data ("response")) kvs,
                data := .obj kvs, items := items }
  | _ => .error .attributeError

/-- The request value built by `ZabbixSession.get_active_checks`. -/
def get_active_checks_request (host : List Char) : PyJson :=
  .obj [(String.data ("request"), .str (String.data ("active checks"))),
        (String.data ("host"), .str host)]

/-- `ZabbixSession.get_active_checks`: one request round trip with the
active-checks payload, then `get_active_checks_parse` on the decoded
reply. -/
def get_active_checks (host : List Char) (recv : List Nat) :
    Except SessionError ZabbixCheckResponse :=
  match request (get_active_checks_request host) recv with
  | .error e => .error e
  | .ok r => get_active_checks_parse r.header r.data

end ZabbixSession

/-- The connection state of a `ZabbixSession`: `connected` mirrors
`self._connected` (`None`/`False` are both modelled as `false`), and
`closed` records whether `socket.close()` has been called. -/
structure SessionConn where
  connected : Bool
  closed : Bool

/-- A fresh session: socket created, not connected (`_connected = None`). -/
def SessionConn.init : SessionConn := { connected := false, closed := false }

/-- `ZabbixSession.connect`. -/
def SessionConn.connect (s : SessionConn) : SessionConn := { s with connected := true }

/-- `ZabbixSession.close`: closes the socket and resets `_connected`. -/
def SessionConn.close (_ : SessionConn) : SessionConn :=
  { connected := false, closed := true }

/-- `ZabbixSession.__enter__`: connect unless already connected. -/
def SessionConn.enter (s : SessionConn) : SessionConn :=
  if s.connected then s else s.connect

/-- `ZabbixSession.__exit__`: close unconditionally. -/
def SessionConn.exit (s : SessionConn) : SessionConn := s.close

/-- The Python `with ZabbixSession(...) as session:` protocol:
`__enter__`, then the body (which returns either a value or a raised
exception, and may change the connection state), then `__exit__` on every
exit path — exactly the try/finally semantics of the `with` statement. -/
def with_session {E A : Type} (s0 : SessionConn)
    (body : SessionConn → Except E A × SessionConn) : Except E A × SessionConn :=
  let s1 := s0.enter
  let r := body s1
  (r.1, r.2.exit)

/-- The `ZabbixSender` object: target server/port, the data-point buffer
`self.data` and the stored result of the scoped flush. -/
structure ZabbixSender where
  server : List Char
  port : Option Nat
  data : List PyJson
  result : Option (Except SessionError ZabbixSenderResponse)

namespace ZabbixSender

/-- A fresh sender with an empty buffer. -/
def init (server : List Char) (port : Option Nat) : ZabbixSender :=
  { server := server, port := port, data := [], result := none }

/-- The data point appended by `ZabbixSender.collect`. -/
def data_point (host key : List Char) (value : PyJson) (clock : Int) : PyJson :=
  .obj [(String.data ("host"), .str host),
        (String.data ("key"), .str key),
        (String.data ("value"), value),
        (String.data ("clock"), .int clock)]

/-- `ZabbixSender.collect`: append one data point to the buffer, with
clock `get_time ts now`. -/
def collect (s : ZabbixSender) (host key : List Char) (value : PyJson)
    (ts : Option Int) (now : Int) : ZabbixSender :=
  { s with data := s.data ++ [data_point host key value (get_time ts now)] }

/-- `ZabbixSender.send`: open a scoped session and call
`session.send_data(self.data)` — the whole current buffer is transmitted
and the buffer is left untouched.  Returns the unchanged sender together
with the call's result; `now` and `recv` stand for the clock and the
socket read inside the round trip. -/
def send (s : ZabbixSender) (now : Int) (recv : List Nat) :
    ZabbixSender × Except SessionError ZabbixSenderResponse :=
  (s, ZabbixSession.send_data s.data none now recv)

end ZabbixSender

namespace Json

mutual

/-- Fuel bound for `parseValue` on the output of `dumps`. -/
def jsize : PyJson → Nat
  | .null => 1
  | .bool _ => 1
  | .int _ => 1
  | .str _ => 1
  | .arr xs => 1 + itemsSize xs
  | .obj kvs => 1 + membersSize kvs

/-- Fuel bound for `parseItems` on the output of `dumpItems`. -/
def itemsSize : List PyJson → Nat
  | [] => 0
  | x :: xs => 1 + jsize x + itemsSize xs

/-- Fuel bound for `parseMembers` on the output of `dumpMembers`. -/
def membersSize : List (List Char × PyJson) → Nat
  | [] => 0
  | kv :: kvs => 1 + jsize kv.2 + membersSize kvs

end

end Json

/-- A continuation after which a maximal-munch JSON integer parse stops
cleanly: empty, or starting with a character that extends neither the
digit run nor a float form.  Every continuation arising inside the output
of `dumps` (a separator, a closing bracket, or the end) satisfies it. -/
def numSafe : List Char → Bool
  | [] => true
  | c :: _ => !(c.isDigit || c = '.' || c = 'e' || c = 'E')

/-! ## Character and digit lemmas -/

theorem char_toNat_ofNat_valid (n : Nat) (h : n.isValidChar) : (Char.ofNat n).toNat = n := by
  simp [Char.ofNat, h, Char.toNat, Char.ofNatAux, UInt32.toNat]

theorem char_toNat_ofNat_lt (n : Nat) (h : n < 55296) : (Char.ofNat n).toNat = n :=
  char_toNat_ofNat_valid n (Or.inl h)

theorem char_toNat_range (c : Char) :
    c.toNat < 55296 ∨ (57343 < c.toNat ∧ c.toNat < 1114112) := by
  rcases c.valid with h | h
  · exact Or.inl h
  · exact Or.inr h

theorem char_eq_of_toNat_eq {c : Char} {n : Nat} (h : c.toNat = n) : c = Char.ofNat n := by
  subst h
  exact (Char.ofNat_toNat c).symm

theorem digitChar_toNat (d : Nat) (h : d ≤ 9) : (digitChar d).toNat = 48 + d :=
  char_toNat_ofNat_lt _ (by omega)

theorem isDigit_iff (c : Char) : c.isDigit = true ↔ 48 ≤ c.toNat ∧ c.toNat ≤ 57 := by
  simp only [Char.isDigit, Bool.and_eq_true, decide_eq_true_eq, ge_iff_le]
  exact ⟨fun ⟨h1, h2⟩ => ⟨h1, h2⟩, fun ⟨h1, h2⟩ => ⟨h1, h2⟩⟩

theorem digitChar_isDigit (d : Nat) (h : d ≤ 9) : (digitChar d).isDigit = true :=
  (isDigit_iff _).mpr (by rw [digitChar_toNat d h]; omega)

/-! ## Whitespace lemmas -/

theorem skipWs_cons_ws {c : Char} (h : isJsonWs c = true) (s : List Char) :
    skipWs (c :: s) = skipWs s := by
  simp [skipWs, h]

theorem skipWs_cons_not_ws {c : Char} (h : isJsonWs c = false) (s : List Char) :
    skipWs (c :: s) = c :: s := by
  simp [skipWs, h]

theorem skipWs_idem (s : List Char) : skipWs (skipWs s) = skipWs s := by
  induction s with
  | nil => rfl
  | cons c t ih =>
    by_cases h : isJsonWs c = true
    · rw [skipWs_cons_ws h, ih]
    · rw [skipWs_cons_not_ws (by simpa using h), skipWs_cons_not_ws (by simpa using h)]

/-! ## Decimal representation lemmas -/

theorem natReprAux_ne_nil {fuel n : Nat} (h : n < fuel) : natReprAux fuel n ≠ [] := by
  match fuel with
  | f + 1 =>
    by_cases h10 : n < 10 <;> simp [natReprAux, h10]

theorem natReprAux_all_digits {fuel n : Nat} (h : n < fuel) :
    ∀ c ∈ natReprAux fuel n, c.isDigit = true := by
  induction fuel generalizing n with
  | zero => omega
  | succ f ih =>
    by_cases h10 : n < 10
    · simp only [natReprAux, if_pos h10, List.mem_singleton]
      rintro c rfl
      exact digitChar_isDigit n (by omega)
    · simp only [natReprAux, if_neg h10, List.mem_append, List.mem_singleton]
      rintro c (hc | rfl)
      · exact ih (by omega) c hc
      · exact digitChar_isDigit (n % 10) (by omega)

theorem natReprAux_head {fuel n : Nat} (h : n < fuel) (h1 : 1 ≤ n) :
    ∃ d t, natReprAux fuel n = digitChar d :: t ∧ 1 ≤ d ∧ d ≤ 9 := by
  induction fuel generalizing n with
  | zero => omega
  | succ f ih =>
    by_cases h10 : n < 10
    · exact ⟨n, [], by simp [natReprAux, h10], h1, by omega⟩
    · obtain ⟨d, t, ht, hd1, hd9⟩ := @ih (n / 10) (by omega) (by omega)
      exact ⟨d, t ++ [digitChar (n % 10)], by simp [natReprAux, h10, ht], hd1, hd9⟩

theorem natReprAux_foldl {fuel n : Nat} (h : n < fuel) (a : Nat) :
    (natReprAux fuel n).foldl (fun a c => a * 10 + (c.toNat - 48)) a =
      a * 10 ^ (natReprAux fuel n).length + n := by
  induction fuel generalizing n a with
  | zero => omega
  | succ f ih =>
    by_cases h10 : n < 10
    · simp only [natReprAux, if_pos h10, List.foldl_cons, List.foldl_nil,
        List.length_singleton, pow_one, digitChar_toNat n (by omega)]
      omega
    · simp only [natReprAux, if_neg h10, List.foldl_append, List.foldl_cons,
        List.foldl_nil, List.length_append, List.length_singleton]
      rw [ih (by omega) a, digitChar_toNat (n % 10) (by omega), pow_succ]
      set t := 10 ^ (natReprAux f (n / 10)).length
      have : a * (t * 10) = a * t * 10 := by ring
      omega

theorem natRepr_ne_nil (n : Nat) : natRepr n ≠ [] := natReprAux_ne_nil (by omega)

theorem natRepr_all_digits (n : Nat) : ∀ c ∈ natRepr n, c.isDigit = true :=
  natReprAux_all_digits (by omega)

theorem digitsToNat_natRepr (n : Nat) : Json.digitsToNat (natRepr n) = n := by
  have := @natReprAux_foldl (n + 1) n (by omega) 0
  simpa [Json.digitsToNat, natRepr] using this

/-! ## takeWhile / dropWhile over a fully-satisfying block -/

theorem takeWhile_append_all {p : Char → Bool} (l r : List Char)
    (hl : ∀ c ∈ l, p c = true) : (l ++ r).takeWhile p = l ++ r.takeWhile p := by
  induction l with
  | nil => simp
  | cons c t ih =>
    have hc : p c = true := hl c (by simp)
    simp only [List.cons_append, List.takeWhile_cons, hc, if_true]
    rw [ih (fun x hx => hl x (by simp [hx]))]

theorem dropWhile_append_all {p : Char → Bool} (l r : List Char)
    (hl : ∀ c ∈ l, p c = true) : (l ++ r).dropWhile p = r.dropWhile p := by
  induction l with
  | nil => simp
  | cons c t ih =>
    have hc : p c = true := hl c (by simp)
    simp only [List.cons_append, List.dropWhile_cons, hc, if_true]
    exact ih (fun x hx => hl x (by simp [hx]))

/-! ## Number parsing round trip -/

theorem numSafe_head {c : Char} {t : List Char} (h : numSafe (c :: t) = true) :
    c.isDigit = false ∧ c ≠ '.' ∧ c ≠ 'e' ∧ c ≠ 'E' := by
  simp only [numSafe, Bool.not_eq_eq_eq_not, Bool.not_true, Bool.or_eq_false_iff,
    decide_eq_false_iff_not] at h
  exact ⟨h.1.1.1, h.1.1.2, h.1.2, h.2⟩

theorem takeWhile_numSafe {r : List Char} (h : numSafe r = true) :
    r.takeWhile Char.isDigit = [] := by
  cases r with
  | nil => rfl
  | cons c t => simp [List.takeWhile_cons, (numSafe_head h).1]

theorem dropWhile_numSafe {r : List Char} (h : numSafe r = true) :
    r.dropWhile Char.isDigit = r := by
  cases r with
  | nil => rfl
  | cons c t => simp [List.dropWhile_cons, (numSafe_head h).1]

theorem parseNumAux_natRepr (n : Nat) (r : List Char) (h : numSafe r = true) :
    Json.parseNumAux (natRepr n ++ r) = some (n, r) := by
  rcases Nat.eq_zero_or_pos n with rfl | hpos
  · have h0 : natRepr 0 = ['0'] := rfl
    rw [h0]
    cases r with
    | nil => rfl
    | cons c t =>
      obtain ⟨_, hdot, he, hE⟩ := numSafe_head h
      simp [Json.parseNumAux, hdot, he, hE]
  · obtain ⟨d, t, hrepr0, hd1, hd9⟩ := @natReprAux_head (n + 1) n (by omega) hpos
    have hrepr : natRepr n = digitChar d :: t := hrepr0
    have halldig : ∀ c ∈ natRepr n, c.isDigit = true := natRepr_all_digits n
    have htake : (natRepr n ++ r).takeWhile Char.isDigit = natRepr n := by
      rw [takeWhile_append_all _ _ halldig, takeWhile_numSafe h, List.append_nil]
    have hdrop : (natRepr n ++ r).dropWhile Char.isDigit = r :=
      (dropWhile_append_all _ _ halldig).trans (dropWhile_numSafe h)
    have hne0 : digitChar d ≠ '0' := by
      intro hc
      have hcc := congrArg Char.toNat hc
      rw [digitChar_toNat d (by omega)] at hcc
      have h48 : ('0').toNat = 48 := rfl
      rw [h48] at hcc
      omega
    have hdig : (digitChar d).isDigit = true := digitChar_isDigit d (by omega)
    have hds : Json.digitsToNat (natRepr n) = n := digitsToNat_natRepr n
    rw [hrepr] at htake hdrop ⊢
    rw [List.cons_append]
    rw [Json.parseNumAux.eq_def]
    simp only []
    rw [if_neg hne0, if_pos hdig]
    simp only [← List.cons_append, htake, hdrop]
    rw [← hrepr, hds]
    cases r with
    | nil => rfl
    | cons c t2 =>
      obtain ⟨_, hdot, he, hE⟩ := numSafe_head h
      simp [hdot, he, hE]

theorem parseNumber_intRepr (n : Int) (r : List Char) (h : numSafe r = true) :
    Json.parseNumber (intRepr n ++ r) = some (.int n, r) := by
  by_cases hneg : n < 0
  · have haux := parseNumAux_natRepr n.natAbs r h
    have habs : -((n.natAbs : Nat) : Int) = n := by omega
    simp [intRepr, hneg, Json.parseNumber, haux, habs]
    rw [abs_of_neg hneg, neg_neg]
  · have haux := parseNumAux_natRepr n.natAbs r h
    have habs : ((n.natAbs : Nat) : Int) = n := by omega
    cases hl : natRepr n.natAbs with
    | nil => exact absurd hl (natRepr_ne_nil _)
    | cons c t =>
      have hcdig : c.isDigit = true := natRepr_all_digits _ c (by rw [hl]; simp)
      have hcm : c ≠ '-' := by
        intro hc
        rw [hc] at hcdig
        simp [Char.isDigit] at hcdig
      rw [hl] at haux
      rw [intRepr, if_neg hneg, hl, List.cons_append, Json.parseNumber, if_neg hcm,
        ← List.cons_append, haux]
      simp [habs]

/-! ## String escaping round trip -/

theorem hexVal_hexDigit (d : Nat) (h : d ≤ 15) : hexVal (hexDigit d) = some d := by
  interval_cases d <;> decide

theorem parseStringBody_escList (s : List Char) : ∀ r fuel, s.length < fuel →
    Json.parseStringBody fuel (escList s ++ '"' :: r) = some (s, r) := by
  induction s with
  | nil =>
    intro r fuel hf
    match fuel with
    | f + 1 => simp [escList, Json.parseStringBody]
  | cons c cs ih =>
    intro r fuel hf
    match fuel with
    | f + 1 =>
      have hcs : cs.length < f := by simp only [List.length_cons] at hf; omega
      have hesc : escList (c :: cs) = escapeChar c ++ escList cs := rfl
      rw [hesc, List.append_assoc]
      by_cases hq : c = '"'
      · subst hq
        simp [escapeChar, Json.parseStringBody, Json.parseEscape, Json.escDecode, ih _ _ hcs]
      · by_cases hb : c = '\\'
        · subst hb
          simp [escapeChar, Json.parseStringBody, Json.parseEscape, Json.escDecode, ih _ _ hcs]
        · by_cases h32 : 32 ≤ c.toNat
          · have he : escapeChar c = [c] := by simp [escapeChar, hq, hb, h32]
            rw [he, List.singleton_append, Json.parseStringBody]
            simp [hq, hb, Nat.not_lt_of_le h32, ih _ _ hcs]
          · have hlt : c.toNat < 32 := by omega
            by_cases h8 : c.toNat = 8
            · have hc : c = Char.ofNat 8 := char_eq_of_toNat_eq h8
              have he : escapeChar c = ['\\', 'b'] := by simp [escapeChar, hq, hb, h32, h8]
              rw [he]
              simp [Json.parseStringBody, Json.parseEscape, Json.escDecode, ih _ _ hcs, hc]
            · by_cases h9 : c.toNat = 9
              · have hc : c = Char.ofNat 9 := char_eq_of_toNat_eq h9
                have he : escapeChar c = ['\\', 't'] := by
                  simp [escapeChar, hq, hb, h32, h8, h9]
                rw [he]
                simp [Json.parseStringBody, Json.parseEscape, Json.escDecode, ih _ _ hcs, hc]
              · by_cases h10 : c.toNat = 10
                · have hc : c = Char.ofNat 10 := char_eq_of_toNat_eq h10
                  have he : escapeChar c = ['\\', 'n'] := by
                    simp [escapeChar, hq, hb, h32, h8, h9, h10]
                  rw [he]
                  simp [Json.parseStringBody, Json.parseEscape, Json.escDecode, ih _ _ hcs, hc]
                · by_cases h12 : c.toNat = 12
                  · have hc : c = Char.ofNat 12 := char_eq_of_toNat_eq h12
                    have he : escapeChar c = ['\\', 'f'] := by
                      simp [escapeChar, hq, hb, h32, h8, h9, h10, h12]
                    rw [he]
                    simp [Json.parseStringBody, Json.parseEscape, Json.escDecode, ih _ _ hcs, hc]
                  · by_cases h13 : c.toNat = 13
                    · have hc : c = Char.ofNat 13 := char_eq_of_toNat_eq h13
                      have he : escapeChar c = ['\\', 'r'] := by
                        simp [escapeChar, hq, hb, h32, h8, h9, h10, h12, h13]
                      rw [he]
                      simp [Json.parseStringBody, Json.parseEscape, Json.escDecode, ih _ _ hcs, hc]
                    · have he : escapeChar c =
                          ['\\', 'u', '0', '0', hexDigit (c.toNat / 16), hexDigit (c.toNat % 16)] := by
                        simp [escapeChar, hq, hb, h32, h8, h9, h10, h12, h13]
                      have hv0 : hexVal '0' = some 0 := by decide
                      have h4 : Json.hexVal4 '0' '0' (hexDigit (c.toNat / 16))
                          (hexDigit (c.toNat % 16)) = some c.toNat := by
                        rw [Json.hexVal4, hv0, hexVal_hexDigit (c.toNat / 16) (by omega),
                          hexVal_hexDigit (c.toNat % 16) (by omega)]
                        simp only [Option.some.injEq]
                        omega
                      have hrange : c.toNat < 55296 ∨ 57343 < c.toNat := Or.inl (by omega)
                      have hpe : ∀ X, Json.parseEscape
                          ('u' :: '0' :: '0' :: hexDigit (c.toNat / 16) ::
                            hexDigit (c.toNat % 16) :: X) = some (Char.ofNat c.toNat, X) := by
                        intro X
                        simp [Json.parseEscape, h4, hrange]
                      have hc : c = Char.ofNat c.toNat := (Char.ofNat_toNat c).symm
                      rw [he]
                      simp [Json.parseStringBody, hpe, ih _ _ hcs, ← hc]

/-! ## UTF-8 round trip -/

theorem utf8EncodeChar_cons (c : Char) : ∃ b t, utf8EncodeChar c = b :: t := by
  simp only [utf8EncodeChar]
  split_ifs <;> exact ⟨_, _, rfl⟩

theorem utf8DecodeChar_encodeChar (c : Char) (r : List Nat) :
    utf8DecodeChar (utf8EncodeChar c ++ r) = some (c, r) := by
  have hv := char_toNat_range c
  by_cases h1 : c.toNat < 128
  · have he : utf8EncodeChar c = [c.toNat] := by simp [utf8EncodeChar, h1]
    simp [he, utf8DecodeChar, h1, Char.ofNat_toNat]
  · by_cases h2 : c.toNat < 2048
    · have he : utf8EncodeChar c = [192 + c.toNat / 64, 128 + c.toNat % 64] := by
        simp [utf8EncodeChar, h1, h2]
      have e1 : ¬(192 + c.toNat / 64 < 128) := by omega
      have e2 : 194 ≤ 192 + c.toNat / 64 ∧ 192 + c.toNat / 64 ≤ 223 := by omega
      have e3 : 128 ≤ 128 + c.toNat % 64 ∧ 128 + c.toNat % 64 ≤ 191 := by omega
      have e4 : (192 + c.toNat / 64 - 192) * 64 + (128 + c.toNat % 64 - 128) = c.toNat := by
        omega
      simp only [he, List.cons_append, List.nil_append, utf8DecodeChar, if_neg e1,
        if_pos e2, if_pos e3, e4]
      rw [Char.ofNat_toNat]
    · by_cases h3 : c.toNat < 65536
      · have he : utf8EncodeChar c =
            [224 + c.toNat / 4096, 128 + c.toNat / 64 % 64, 128 + c.toNat % 64] := by
          simp [utf8EncodeChar, h1, h2, h3]
        have e1 : ¬(224 + c.toNat / 4096 < 128) := by omega
        have e2 : ¬(194 ≤ 224 + c.toNat / 4096 ∧ 224 + c.toNat / 4096 ≤ 223) := by omega
        have e3 : 224 ≤ 224 + c.toNat / 4096 ∧ 224 + c.toNat / 4096 ≤ 239 := by omega
        have e4 : 128 ≤ 128 + c.toNat / 64 % 64 ∧ 128 + c.toNat / 64 % 64 ≤ 191 ∧
            128 ≤ 128 + c.toNat % 64 ∧ 128 + c.toNat % 64 ≤ 191 := by omega
        have e5 : (224 + c.toNat / 4096 - 224) * 4096 + (128 + c.toNat / 64 % 64 - 128) * 64 +
            (128 + c.toNat % 64 - 128) = c.toNat := by omega
        have e6 : 2048 ≤ c.toNat ∧ (c.toNat < 55296 ∨ 57343 < c.toNat) := by omega
        simp only [he, List.cons_append, List.nil_append, utf8DecodeChar, if_neg e1,
          if_neg e2, if_pos e3, if_pos e4, e5, Char.ofNat_toNat]
        rw [if_pos e6]
      · have he : utf8EncodeChar c = [240 + c.toNat / 262144, 128 + c.toNat / 4096 % 64,
            128 + c.toNat / 64 % 64, 128 + c.toNat % 64] := by
          simp [utf8EncodeChar, h1, h2, h3]
        have e1 : ¬(240 + c.toNat / 262144 < 128) := by omega
        have e2 : ¬(194 ≤ 240 + c.toNat / 262144 ∧ 240 + c.toNat / 262144 ≤ 223) := by omega
        have e3 : ¬(224 ≤ 240 + c.toNat / 262144 ∧ 240 + c.toNat / 262144 ≤ 239) := by omega
        have e4 : 240 ≤ 240 + c.toNat / 262144 ∧ 240 + c.toNat / 262144 ≤ 244 := by omega
        have e5 : 128 ≤ 128 + c.toNat / 4096 % 64 ∧ 128 + c.toNat / 4096 % 64 ≤ 191 ∧
            128 ≤ 128 + c.toNat / 64 % 64 ∧ 128 + c.toNat / 64 % 64 ≤ 191 ∧
            128 ≤ 128 + c.toNat % 64 ∧ 128 + c.toNat % 64 ≤ 191 := by omega
        have e6 : (240 + c.toNat / 262144 - 240) * 262144 +
            (128 + c.toNat / 4096 % 64 - 128) * 4096 + (128 + c.toNat / 64 % 64 - 128) * 64 +
            (128 + c.toNat % 64 - 128) = c.toNat := by omega
        have e7 : 65536 ≤ c.toNat ∧ c.toNat ≤ 1114111 := by omega
        simp only [he, List.cons_append, List.nil_append, utf8DecodeChar, if_neg e1,
          if_neg e2, if_neg e3, if_pos e4, if_pos e5, e6, Char.ofNat_toNat]
        rw [if_pos e7]

theorem utf8Encode_length (s : List Char) : s.length ≤ (utf8Encode s).length := by
  induction s with
  | nil => simp
  | cons c cs ih =>
    obtain ⟨b, t, hbt⟩ := utf8EncodeChar_cons c
    have he : utf8Encode (c :: cs) = utf8EncodeChar c ++ utf8Encode cs := rfl
    rw [he, hbt]
    simp only [List.cons_append, List.length_cons, List.length_append]
    omega

theorem utf8DecodeLoop_encode (s : List Char) :
    ∀ fuel, s.length < fuel → utf8DecodeLoop fuel (utf8Encode s) = some s := by
  induction s with
  | nil =>
    intro fuel hf
    match fuel with
    | f + 1 => rfl
  | cons c cs ih =>
    intro fuel hf
    match fuel with
    | f + 1 =>
      have hcs : cs.length < f := by simp only [List.length_cons] at hf; omega
      obtain ⟨b, t, hbt⟩ := utf8EncodeChar_cons c
      have he : utf8Encode (c :: cs) = utf8EncodeChar c ++ utf8Encode cs := rfl
      rw [he, hbt, List.cons_append, utf8DecodeLoop, ← List.cons_append, ← hbt,
        utf8DecodeChar_encodeChar]
      show (utf8DecodeLoop f (utf8Encode cs)).map (fun cs => c :: cs) = some (c :: cs)
      rw [ih f hcs]
      rfl

theorem utf8Decode_encode (s : List Char) : utf8Decode (utf8Encode s) = some s :=
  utf8DecodeLoop_encode s _ (by have := utf8Encode_length s; omega)

/-! ## Induction principle for the nested inductive `PyJson` -/

theorem PyJson.myInd (P : PyJson → Prop)
    (hnull : P .null) (hbool : ∀ b, P (.bool b)) (hint : ∀ n, P (.int n))
    (hstr : ∀ s, P (.str s))
    (harr : ∀ xs, (∀ x ∈ xs, P x) → P (.arr xs))
    (hobj : ∀ kvs, (∀ kv ∈ kvs, P kv.2) → P (.obj kvs)) : ∀ v, P v := by
  have key : ∀ n v, sizeOf v ≤ n → P v := by
    intro n
    induction n with
    | zero =>
      intro v h
      exfalso
      cases v <;> simp at h
    | succ n ih =>
      intro v _h
      cases v with
      | null => exact hnull
      | bool b => exact hbool b
      | int m => exact hint m
      | str s => exact hstr s
      | arr xs =>
        refine harr xs (fun x hx => ih x ?_)
        have h1 : sizeOf x < sizeOf xs := List.sizeOf_lt_of_mem hx
        have h2 : sizeOf (PyJson.arr xs) = 1 + sizeOf xs := by simp
        omega
      | obj kvs =>
        refine hobj kvs (fun kv hkv => ih kv.2 ?_)
        have h1 : sizeOf kv < sizeOf kvs := List.sizeOf_lt_of_mem hkv
        have h2 : sizeOf kv.2 < sizeOf kv := by
          obtain ⟨a, b⟩ := kv
          simp
          try omega
        have h3 : sizeOf (PyJson.obj kvs) = 1 + sizeOf kvs := by simp
        omega
  exact fun v => key (sizeOf v) v (le_refl _)

/-! ## Head characters of dumped values -/

theorem char_ne_of_toNat_ne {c d : Char} (h : c.toNat ≠ d.toNat) : c ≠ d :=
  fun hc => h (congrArg Char.toNat hc)

theorem digit_head_facts {c : Char} (h : c.isDigit = true) :
    isJsonWs c = false ∧ c ≠ ']' := by
  have ht := (isDigit_iff c).mp h
  constructor
  · simp only [isJsonWs, decide_eq_false_iff_not]
    rintro (rfl | rfl | rfl | rfl) <;> exact absurd ht (by decide)
  · rintro rfl
    exact absurd ht (by decide)

theorem dumps_head (v : PyJson) :
    ∃ c t, Json.dumps v = c :: t ∧ isJsonWs c = false ∧ c ≠ ']' := by
  cases v with
  | null => exact ⟨'n', _, rfl, by decide, by decide⟩
  | bool b => cases b with
    | true => exact ⟨'t', _, rfl, by decide, by decide⟩
    | false => exact ⟨'f', _, rfl, by decide, by decide⟩
  | int n =>
    have hd : Json.dumps (.int n) = intRepr n := by rw [Json.dumps]
    by_cases hneg : n < 0
    · exact ⟨'-', _, by rw [hd, intRepr, if_pos hneg], by decide, by decide⟩
    · cases hl : natRepr n.natAbs with
      | nil => exact absurd hl (natRepr_ne_nil _)
      | cons c t =>
        have hcd : c.isDigit = true := natRepr_all_digits _ c (by rw [hl]; simp)
        obtain ⟨hws, hne⟩ := digit_head_facts hcd
        exact ⟨c, t, by rw [hd, intRepr, if_neg hneg, hl], hws, hne⟩
  | str s => exact ⟨'"', _, by rw [Json.dumps], by decide, by decide⟩
  | arr xs => exact ⟨'[', _, by rw [Json.dumps], by decide, by decide⟩
  | obj kvs => exact ⟨'{', _, by rw [Json.dumps], by decide, by decide⟩

theorem escList_length (s : List Char) : s.length ≤ (escList s).length := by
  induction s with
  | nil => simp
  | cons c cs ih =>
    have he : escList (c :: cs) = escapeChar c ++ escList cs := rfl
    have hc : 1 ≤ (escapeChar c).length := by
      simp only [escapeChar]
      split_ifs <;> simp
    rw [he]
    simp only [List.length_cons, List.length_append]
    omega

/-! ## Whitespace-tolerance of the scanner entry points -/

theorem numSafe_rbrack (t : List Char) : numSafe (']' :: t) = true := rfl

theorem numSafe_rbrace (t : List Char) : numSafe ('}' :: t) = true := rfl

theorem numSafe_comma (t : List Char) : numSafe (',' :: t) = true := rfl

theorem numSafe_nil : numSafe [] = true := rfl

theorem parseValue_cons_ws {c : Char} (hc : isJsonWs c = true) (f : Nat) (s : List Char) :
    Json.parseValue f (c :: s) = Json.parseValue f s := by
  match f with
  | 0 => rfl
  | g + 1 => rw [Json.parseValue, Json.parseValue, skipWs_cons_ws hc]

theorem parseItems_cons_ws {c : Char} (hc : isJsonWs c = true) (f : Nat) (s : List Char) :
    Json.parseItems f (c :: s) = Json.parseItems f s := by
  match f with
  | 0 => rfl
  | g + 1 => rw [Json.parseItems, Json.parseItems, parseValue_cons_ws hc]

theorem parseMembers_cons_ws {c : Char} (hc : isJsonWs c = true) (f : Nat) (s : List Char) :
    Json.parseMembers f (c :: s) = Json.parseMembers f s := by
  match f with
  | 0 => rfl
  | g + 1 => rw [Json.parseMembers, Json.parseMembers, skipWs_cons_ws hc]

/-! ## Round trip of the value scanner over the serializer -/

theorem parse_items_dump (xs : List PyJson)
    (hP : ∀ x ∈ xs, ∀ r fuel, numSafe r = true → Json.jsize x ≤ fuel →
      Json.parseValue fuel (Json.dumps x ++ r) = some (x, r)) :
    xs ≠ [] → ∀ r fuel, Json.itemsSize xs ≤ fuel →
      Json.parseItems fuel (Json.dumpItems xs ++ ']' :: r) = some (xs, r) := by
  induction xs with
  | nil => intro h; exact absurd rfl h
  | cons x xs ih =>
    intro _ r fuel hf
    have hPx := hP x (by simp)
    have hsz : Json.itemsSize (x :: xs) = 1 + Json.jsize x + Json.itemsSize xs := by
      rw [Json.itemsSize]
    obtain ⟨f, rfl⟩ : ∃ f, fuel = f + 1 := ⟨fuel - 1, by omega⟩
    have hjx : Json.jsize x ≤ f := by rw [hsz] at hf; omega
    have hixs : Json.itemsSize xs ≤ f := by rw [hsz] at hf; omega
    cases xs with
    | nil =>
      have hd : Json.dumpItems [x] = Json.dumps x := by
        rw [Json.dumpItems, Json.dumpRest, List.append_nil]
      rw [hd, Json.parseItems, hPx (']' :: r) f (numSafe_rbrack r) hjx]
      rfl
    | cons y ys =>
      have hd : Json.dumpItems (x :: y :: ys) =
          Json.dumps x ++ (',' :: ' ' :: Json.dumpItems (y :: ys)) := rfl
      rw [hd]
      rw [List.append_assoc]
      rw [List.cons_append (',') (' ' :: Json.dumpItems (y :: ys)) (']' :: r)]
      rw [List.cons_append (' ') (Json.dumpItems (y :: ys)) (']' :: r)]
      rw [Json.parseItems]
      rw [hPx _ f (numSafe_comma _) hjx]
      have hrec : Json.parseItems f (' ' :: (Json.dumpItems (y :: ys) ++ ']' :: r)) =
          some (y :: ys, r) := by
        rw [parseItems_cons_ws (by rfl)]
        exact ih (fun z hz => hP z (by simp [hz])) (by simp) r f hixs
      show (match Json.parseItems f (' ' :: (Json.dumpItems (y :: ys) ++ ']' :: r)) with
            | none => none
            | some (xs, r) => some (x :: xs, r)) = some (x :: y :: ys, r)
      rw [hrec]

theorem parse_members_dump (kvs : List (List Char × PyJson))
    (hP : ∀ kv ∈ kvs, ∀ r fuel, numSafe r = true → Json.jsize kv.2 ≤ fuel →
      Json.parseValue fuel (Json.dumps kv.2 ++ r) = some (kv.2, r)) :
    kvs ≠ [] → ∀ r fuel, Json.membersSize kvs ≤ fuel →
      Json.parseMembers fuel (Json.dumpMembers kvs ++ '}' :: r) = some (kvs, r) := by
  induction kvs with
  | nil => intro h; exact absurd rfl h
  | cons kv kvs ih =>
    obtain ⟨k, v⟩ := kv
    intro _ r fuel hf
    have hPv := hP (k, v) (by simp)
    have hsz : Json.membersSize ((k, v) :: kvs) =
        1 + Json.jsize v + Json.membersSize kvs := by rw [Json.membersSize]
    obtain ⟨f, rfl⟩ : ∃ f, fuel = f + 1 := ⟨fuel - 1, by omega⟩
    have hjv : Json.jsize v ≤ f := by rw [hsz] at hf; omega
    have hmks : Json.membersSize kvs ≤ f := by rw [hsz] at hf; omega
    have hkey : ∀ Z : List Char, Json.parseStringBody ((escList k ++ '"' :: Z).length + 1)
        (escList k ++ '"' :: Z) = some (k, Z) := by
      intro Z
      refine parseStringBody_escList k Z _ ?_
      have := escList_length k
      simp only [List.length_append, List.length_cons]
      omega
    cases kvs with
    | nil =>
      have hin : Json.dumpMembers [(k, v)] ++ '}' :: r =
          '"' :: (escList k ++ '"' :: (':' :: ' ' :: (Json.dumps v ++ '}' :: r))) := by
        show ('"' :: (escList k ++ '"' :: ':' :: ' ' ::
          (Json.dumps v ++ Json.dumpMembersRest []))) ++ '}' :: r = _
        rw [Json.dumpMembersRest]
        simp
      have hval : Json.parseValue f (' ' :: (Json.dumps v ++ '}' :: r)) =
          some (v, '}' :: r) := by
        rw [parseValue_cons_ws (by rfl)]
        exact hPv ('}' :: r) f (numSafe_rbrace r) hjv
      rw [hin, Json.parseMembers]
      rw [skipWs_cons_not_ws (by decide)]
      simp only [if_pos rfl, hkey (':' :: ' ' :: (Json.dumps v ++ '}' :: r))]
      show (match skipWs (':' :: ' ' :: (Json.dumps v ++ '}' :: r)) with
            | [] => none
            | c1 :: s2 =>
              if c1 = ':' then
                match Json.parseValue f s2 with
                | none => none
                | some (v2, s3) =>
                  match skipWs s3 with
                  | [] => none
                  | c2 :: s4 =>
                    if c2 = '}' then some ([(k, v2)], s4)
                    else if c2 = ',' then
                      match Json.parseMembers f s4 with
                      | none => none
                      | some (ms, r2) => some ((k, v2) :: ms, r2)
                    else none
              else none) = some ([(k, v)], r)
      rw [skipWs_cons_not_ws (by decide)]
      simp only [if_pos rfl, hval]
      rw [skipWs_cons_not_ws (by decide)]
      simp
    | cons kv2 ms =>
      have hin : Json.dumpMembers ((k, v) :: kv2 :: ms) ++ '}' :: r =
          '"' :: (escList k ++ '"' :: (':' :: ' ' :: (Json.dumps v ++
            (',' :: ' ' :: (Json.dumpMembers (kv2 :: ms) ++ '}' :: r))))) := by
        obtain ⟨k2, v2⟩ := kv2
        show ('"' :: (escList k ++ '"' :: ':' :: ' ' ::
          (Json.dumps v ++ Json.dumpMembersRest ((k2, v2) :: ms)))) ++ '}' :: r = _
        rw [Json.dumpMembersRest]
        show _ = '"' :: (escList k ++ '"' :: (':' :: ' ' :: (Json.dumps v ++
          (',' :: ' ' :: (('"' :: (escList k2 ++ '"' :: ':' :: ' ' ::
            (Json.dumps v2 ++ Json.dumpMembersRest ms))) ++ '}' :: r)))))
        simp
      have hval : Json.parseValue f (' ' :: (Json.dumps v ++
          (',' :: ' ' :: (Json.dumpMembers (kv2 :: ms) ++ '}' :: r)))) =
          some (v, ',' :: ' ' :: (Json.dumpMembers (kv2 :: ms) ++ '}' :: r)) := by
        rw [parseValue_cons_ws (by rfl)]
        exact hPv _ f (numSafe_comma _) hjv
      have hrec : Json.parseMembers f (' ' :: (Json.dumpMembers (kv2 :: ms) ++ '}' :: r)) =
          some (kv2 :: ms, r) := by
        rw [parseMembers_cons_ws (by rfl)]
        exact ih (fun z hz => hP z (by simp [hz])) (by simp) r f hmks
      rw [hin, Json.parseMembers]
      rw [skipWs_cons_not_ws (by decide)]
      simp only [if_pos rfl, hkey]
      show (match skipWs (':' :: ' ' :: (Json.dumps v ++
              (',' :: ' ' :: (Json.dumpMembers (kv2 :: ms) ++ '}' :: r)))) with
            | [] => none
            | c1 :: s2 =>
              if c1 = ':' then
                match Json.parseValue f s2 with
                | none => none
                | some (v2, s3) =>
                  match skipWs s3 with
                  | [] => none
                  | c2 :: s4 =>
                    if c2 = '}' then some ([(k, v2)], s4)
                    else if c2 = ',' then
                      match Json.parseMembers f s4 with
                      | none => none
                      | some (ms2, r2) => some ((k, v2) :: ms2, r2)
                    else none
              else none) = some ((k, v) :: kv2 :: ms, r)
      rw [skipWs_cons_not_ws (by decide)]
      simp only [if_pos rfl, hval]
      rw [skipWs_cons_not_ws (by decide)]
      simp [hrec]

theorem natRepr_head_digit (n : Nat) :
    ∃ d t, natRepr n = digitChar d :: t ∧ d ≤ 9 := by
  rcases Nat.eq_zero_or_pos n with rfl | hpos
  · exact ⟨0, [], rfl, by omega⟩
  · obtain ⟨d, t, ht, _, hd9⟩ := @natReprAux_head (n + 1) n (by omega) hpos
    exact ⟨d, t, ht, hd9⟩

theorem parse_dump : ∀ v : PyJson, ∀ r fuel, numSafe r = true → Json.jsize v ≤ fuel →
    Json.parseValue fuel (Json.dumps v ++ r) = some (v, r) := by
  intro v
  induction v using PyJson.myInd with
  | hnull =>
    intro r fuel hr hf
    have h1 : Json.jsize PyJson.null = 1 := rfl
    obtain ⟨f, rfl⟩ : ∃ f, fuel = f + 1 := ⟨fuel - 1, by omega⟩
    have hd : Json.dumps PyJson.null ++ r = 'n' :: 'u' :: 'l' :: 'l' :: r := rfl
    rw [hd, Json.parseValue, skipWs_cons_not_ws (by decide)]
    rfl
  | hbool b =>
    intro r fuel hr hf
    have h1 : Json.jsize (PyJson.bool b) = 1 := rfl
    obtain ⟨f, rfl⟩ : ∃ f, fuel = f + 1 := ⟨fuel - 1, by omega⟩
    cases b with
    | true =>
      have hd : Json.dumps (PyJson.bool true) ++ r = 't' :: 'r' :: 'u' :: 'e' :: r := rfl
      rw [hd, Json.parseValue, skipWs_cons_not_ws (by decide)]
      rfl
    | false =>
      have hd : Json.dumps (PyJson.bool false) ++ r = 'f' :: 'a' :: 'l' :: 's' :: 'e' :: r := rfl
      rw [hd, Json.parseValue, skipWs_cons_not_ws (by decide)]
      rfl
  | hint n =>
    intro r fuel hr hf
    have h1 : Json.jsize (PyJson.int n) = 1 := rfl
    obtain ⟨f, rfl⟩ : ∃ f, fuel = f + 1 := ⟨fuel - 1, by omega⟩
    have hdmp : Json.dumps (PyJson.int n) = intRepr n := by rw [Json.dumps]
    by_cases hneg : n < 0
    · have hir : intRepr n = '-' :: natRepr n.natAbs := by rw [intRepr, if_pos hneg]
      rw [hdmp, hir, List.cons_append, Json.parseValue, skipWs_cons_not_ws (by decide)]
      refine Eq.trans ?_ (parseNumber_intRepr n r hr)
      rw [hir, List.cons_append]
      rfl
    · have hir : intRepr n = natRepr n.natAbs := by rw [intRepr, if_neg hneg]
      obtain ⟨d, t, hl, hd9⟩ := natRepr_head_digit n.natAbs
      have hws : isJsonWs (digitChar d) = false := (digit_head_facts (digitChar_isDigit d hd9)).1
      rw [hdmp, hir, hl, List.cons_append, Json.parseValue, skipWs_cons_not_ws hws]
      refine Eq.trans ?_ (parseNumber_intRepr n r hr)
      rw [hir, hl, List.cons_append]
      interval_cases d <;> rfl
  | hstr s =>
    intro r fuel hr hf
    have h1 : Json.jsize (PyJson.str s) = 1 := rfl
    obtain ⟨f, rfl⟩ : ∃ f, fuel = f + 1 := ⟨fuel - 1, by omega⟩
    have hd : Json.dumps (PyJson.str s) ++ r = '"' :: (escList s ++ '"' :: r) := by
      rw [Json.dumps]
      simp
    rw [hd, Json.parseValue, skipWs_cons_not_ws (by decide)]
    have hst : Json.parseStringBody ((escList s ++ '"' :: r).length + 1)
        (escList s ++ '"' :: r) = some (s, r) := by
      refine parseStringBody_escList s r _ ?_
      have := escList_length s
      simp only [List.length_append, List.length_cons]
      omega
    show (Json.parseStringBody ((escList s ++ '"' :: r).length + 1)
      (escList s ++ '"' :: r)).map (fun p => (PyJson.str p.1, p.2)) = some (.str s, r)
    rw [hst]
    rfl
  | harr xs hmem =>
    intro r fuel hr hf
    cases xs with
    | nil =>
      have h1 : Json.jsize (PyJson.arr []) = 1 := rfl
      obtain ⟨f, rfl⟩ : ∃ f, fuel = f + 1 := ⟨fuel - 1, by omega⟩
      have hd : Json.dumps (PyJson.arr []) ++ r = '[' :: ']' :: r := rfl
      rw [hd, Json.parseValue, skipWs_cons_not_ws (by decide)]
      rfl
    | cons x xs =>
      have h1 : Json.jsize (PyJson.arr (x :: xs)) = 1 + Json.itemsSize (x :: xs) := by
        rw [Json.jsize]
      have h2 : 1 ≤ Json.itemsSize (x :: xs) := by rw [Json.itemsSize]; omega
      obtain ⟨f, rfl⟩ : ∃ f, fuel = f + 1 := ⟨fuel - 1, by omega⟩
      have hsz : Json.itemsSize (x :: xs) ≤ f := by omega
      obtain ⟨c, t, hct, hws, hne⟩ := dumps_head x
      have hd : Json.dumps (PyJson.arr (x :: xs)) ++ r =
          '[' :: (Json.dumpItems (x :: xs) ++ ']' :: r) := by
        rw [Json.dumps]
        simp
      have hsh : Json.dumpItems (x :: xs) ++ ']' :: r =
          c :: (t ++ Json.dumpRest xs ++ ']' :: r) := by
        rw [Json.dumpItems, hct]
        simp
      rw [hd, Json.parseValue, skipWs_cons_not_ws (by decide)]
      show (match skipWs (Json.dumpItems (x :: xs) ++ ']' :: r) with
            | [] => none
            | c :: t =>
              if c = ']' then some (PyJson.arr [], t)
              else (Json.parseItems f (c :: t)).map (fun p => (PyJson.arr p.1, p.2))) =
        some (.arr (x :: xs), r)
      rw [hsh, skipWs_cons_not_ws hws]
      simp only [if_neg hne]
      rw [← hsh]
      rw [parse_items_dump (x :: xs) hmem (by simp) r f hsz]
      rfl
  | hobj kvs hmem =>
    intro r fuel hr hf
    cases kvs with
    | nil =>
      have h1 : Json.jsize (PyJson.obj []) = 1 := rfl
      obtain ⟨f, rfl⟩ : ∃ f, fuel = f + 1 := ⟨fuel - 1, by omega⟩
      have hd : Json.dumps (PyJson.obj []) ++ r = '{' :: '}' :: r := rfl
      rw [hd, Json.parseValue, skipWs_cons_not_ws (by decide)]
      rfl
    | cons kv kvs =>
      have h1 : Json.jsize (PyJson.obj (kv :: kvs)) = 1 + Json.membersSize (kv :: kvs) := by
        rw [Json.jsize]
      have h2 : 1 ≤ Json.membersSize (kv :: kvs) := by rw [Json.membersSize]; omega
      obtain ⟨f, rfl⟩ : ∃ f, fuel = f + 1 := ⟨fuel - 1, by omega⟩
      have hsz : Json.membersSize (kv :: kvs) ≤ f := by omega
      obtain ⟨k, v⟩ := kv
      have hd : Json.dumps (PyJson.obj ((k, v) :: kvs)) ++ r =
          '{' :: (Json.dumpMembers ((k, v) :: kvs) ++ '}' :: r) := by
        rw [Json.dumps]
        simp
      have hsh : Json.dumpMembers ((k, v) :: kvs) ++ '}' :: r =
          '"' :: ((escList k ++ '"' :: ':' :: ' ' :: (Json.dumps v ++
            Json.dumpMembersRest kvs)) ++ '}' :: r) := by
        rw [Json.dumpMembers]
        simp
      rw [hd, Json.parseValue, skipWs_cons_not_ws (by decide)]
      show (match skipWs (Json.dumpMembers ((k, v) :: kvs) ++ '}' :: r) with
            | [] => none
            | c :: t =>
              if c = '}' then some (PyJson.obj [], t)
              else (Json.parseMembers f (c :: t)).map (fun p => (PyJson.obj p.1, p.2))) =
        some (.obj ((k, v) :: kvs), r)
      rw [hsh, skipWs_cons_not_ws (by decide)]
      simp only [if_neg (by decide : ¬('"' : Char) = '}')]
      rw [← hsh]
      rw [parse_members_dump ((k, v) :: kvs) hmem (by simp) r f hsz]
      rfl

/-! ## Fuel bound and the top-level loads/dumps round trip -/

theorem itemsSize_le_dumpRest (xs : List PyJson)
    (h : ∀ x ∈ xs, Json.jsize x ≤ 2 * (Json.dumps x).length) :
    Json.itemsSize xs ≤ 2 * (Json.dumpRest xs).length := by
  induction xs with
  | nil =>
    rw [Json.itemsSize]
    omega
  | cons x xs ih =>
    have h1 := h x (by simp)
    have h2 := ih (fun y hy => h y (by simp [hy]))
    rw [Json.itemsSize, Json.dumpRest]
    simp only [List.length_cons, List.length_append]
    omega

theorem membersSize_le_dumpMembersRest (kvs : List (List Char × PyJson))
    (h : ∀ kv ∈ kvs, Json.jsize kv.2 ≤ 2 * (Json.dumps kv.2).length) :
    Json.membersSize kvs ≤ 2 * (Json.dumpMembersRest kvs).length := by
  induction kvs with
  | nil =>
    rw [Json.membersSize]
    omega
  | cons kv kvs ih =>
    obtain ⟨k, v⟩ := kv
    have h1 : Json.jsize v ≤ 2 * (Json.dumps v).length := h (k, v) (by simp)
    have h2 := ih (fun y hy => h y (by simp [hy]))
    rw [Json.membersSize, Json.dumpMembersRest]
    simp only [List.length_cons, List.length_append]
    omega

theorem jsize_le (v : PyJson) : Json.jsize v ≤ 2 * (Json.dumps v).length := by
  induction v using PyJson.myInd with
  | hnull => decide
  | hbool b => cases b <;> decide
  | hint n =>
    have h1 : Json.jsize (PyJson.int n) = 1 := rfl
    have h2 : Json.dumps (PyJson.int n) = intRepr n := by rw [Json.dumps]
    have h3 : intRepr n ≠ [] := by
      rw [intRepr]
      split_ifs
      · simp
      · exact natRepr_ne_nil _
    rw [h1, h2]
    cases hl : intRepr n with
    | nil => exact absurd hl h3
    | cons c t =>
      simp only [List.length_cons]
      omega
  | hstr s =>
    have h1 : Json.jsize (PyJson.str s) = 1 := rfl
    have h2 : Json.dumps (PyJson.str s) = '"' :: (escList s ++ ['"']) := by rw [Json.dumps]
    rw [h1, h2]
    simp
    omega
  | harr xs hmem =>
    have h1 : Json.jsize (PyJson.arr xs) = 1 + Json.itemsSize xs := by rw [Json.jsize]
    have h2 : Json.dumps (PyJson.arr xs) = '[' :: (Json.dumpItems xs ++ [']']) := by
      rw [Json.dumps]
    rw [h1, h2]
    cases xs with
    | nil =>
      rw [Json.itemsSize]
      simp only [Json.dumpItems, List.length_nil, List.nil_append, List.length_cons,
        List.length_singleton]
      omega
    | cons x xs =>
      have h3 := hmem x (by simp)
      have h4 := itemsSize_le_dumpRest xs (fun y hy => hmem y (by simp [hy]))
      rw [Json.itemsSize, Json.dumpItems]
      simp only [List.length_cons, List.length_append, List.length_singleton]
      omega
  | hobj kvs hmem =>
    have h1 : Json.jsize (PyJson.obj kvs) = 1 + Json.membersSize kvs := by rw [Json.jsize]
    have h2 : Json.dumps (PyJson.obj kvs) = '{' :: (Json.dumpMembers kvs ++ ['}']) := by
      rw [Json.dumps]
    rw [h1, h2]
    cases kvs with
    | nil =>
      rw [Json.membersSize]
      simp only [Json.dumpMembers, List.length_nil, List.nil_append, List.length_cons,
        List.length_singleton]
      omega
    | cons kv kvs =>
      obtain ⟨k, v⟩ := kv
      have h3 : Json.jsize v ≤ 2 * (Json.dumps v).length := hmem (k, v) (by simp)
      have h4 := membersSize_le_dumpMembersRest kvs (fun y hy => hmem y (by simp [hy]))
      rw [Json.membersSize, Json.dumpMembers]
      simp only [List.length_cons, List.length_append, List.length_singleton]
      omega

theorem loads_dumps (v : PyJson) : Json.loads (Json.dumps v) = some v := by
  have hp : Json.parseValue (2 * (Json.dumps v).length + 1) (Json.dumps v ++ []) =
      some (v, []) :=
    parse_dump v [] _ numSafe_nil (by have := jsize_le v; omega)
  rw [List.append_nil] at hp
  rw [Json.loads, hp]
  rfl

/-! ## Frame codec lemmas -/

theorem le64_length (n : Nat) : (ZabbixSession.le64 n).length = 8 := rfl

theorem decodeLE64_le64 (n : Nat) (h : n < 18446744073709551616) :
    ZabbixSession.decodeLE64 (ZabbixSession.le64 n) = n := by
  simp only [ZabbixSession.le64, ZabbixSession.decodeLE64, List.foldr]
  omega

theorem pack_json_eq (v : PyJson)
    (h : (utf8Encode (Json.dumps v)).length < 18446744073709551616) :
    ZabbixSession.pack_json v = some (90 :: 66 :: 88 :: 68 :: 1 ::
      (ZabbixSession.le64 (utf8Encode (Json.dumps v)).length ++ utf8Encode (Json.dumps v))) := by
  rw [ZabbixSession.pack_json, ZabbixSession.pack_header]
  split_ifs with hcond
  · rfl
  · refine absurd ⟨?_, h⟩ hcond
    show ZabbixSession.VERSION ≤ 255
    decide

theorem pack_json_isSome (v : PyJson)
    (h : (utf8Encode (Json.dumps v)).length < 18446744073709551616) :
    (ZabbixSession.pack_json v).isSome := by
  rw [pack_json_eq v h]
  rfl

theorem unpack_header_frame (L : Nat) (P : List Nat) (hP : P.length = L) :
    ZabbixSession.unpack_header
      (90 :: 66 :: 88 :: 68 :: 1 :: (ZabbixSession.le64 L ++ P)) =
      .ok { header := ZabbixSession.HEADER, version := 1,
            length := ZabbixSession.decodeLE64 (ZabbixSession.le64 L) } := by
  have hlen : (90 :: 66 :: 88 :: 68 :: 1 :: (ZabbixSession.le64 L ++ P)).length =
      13 + P.length := by
    simp [le64_length]
    omega
  rw [ZabbixSession.unpack_header, if_neg (by omega)]
  have htake : (90 :: 66 :: 88 :: 68 :: 1 :: (ZabbixSession.le64 L ++ P)).take 4 =
      ZabbixSession.HEADER := rfl
  have hget : (90 :: 66 :: 88 :: 68 :: 1 :: (ZabbixSession.le64 L ++ P)).getD 4 0 = 1 := rfl
  have hdrop : (90 :: 66 :: 88 :: 68 :: 1 :: (ZabbixSession.le64 L ++ P)).drop 5 =
      ZabbixSession.le64 L ++ P := rfl
  have htake8 : (ZabbixSession.le64 L ++ P).take 8 = ZabbixSession.le64 L := by
    have := List.take_left (ZabbixSession.le64 L) P
    rwa [le64_length] at this
  rw [htake, hget, hdrop, htake8]

theorem unpack_json_frame (v : PyJson)
    (h : (utf8Encode (Json.dumps v)).length < 18446744073709551616) :
    ZabbixSession.unpack_json (90 :: 66 :: 88 :: 68 :: 1 ::
      (ZabbixSession.le64 (utf8Encode (Json.dumps v)).length ++ utf8Encode (Json.dumps v))) =
      .ok ({ header := ZabbixSession.HEADER, version := 1,
             length := (utf8Encode (Json.dumps v)).length }, v) := by
  set L := (utf8Encode (Json.dumps v)).length with hL
  set P := utf8Encode (Json.dumps v) with hP
  rw [ZabbixSession.unpack_json, unpack_header_frame L P rfl, decodeLE64_le64 L h]
  have hdrop13 : (90 :: 66 :: 88 :: 68 :: 1 :: (ZabbixSession.le64 L ++ P)).drop 13 = P := by
    show (ZabbixSession.le64 L ++ P).drop 8 = P
    have := List.drop_left (ZabbixSession.le64 L) P
    rwa [le64_length] at this
  rw [hdrop13]
  show (match utf8Decode (List.take L P) with
    | none => Except.error SessionError.decodeError
    | some cs =>
      match Json.loads cs with
      | none => Except.error SessionError.jsonError
      | some w => Except.ok ((⟨ZabbixSession.HEADER, 1, L⟩ : ZabbixSessionHeader), w)) =
    Except.ok ((⟨ZabbixSession.HEADER, 1, L⟩ : ZabbixSessionHeader), v)
  have htk : List.take L P = P := List.take_of_length_le (by rw [hP, hL])
  rw [htk, hP, utf8Decode_encode]
  show (match Json.loads (Json.dumps v) with
    | none => Except.error SessionError.jsonError
    | some w => Except.ok ((⟨ZabbixSession.HEADER, 1, L⟩ : ZabbixSessionHeader), w)) =
    Except.ok ((⟨ZabbixSession.HEADER, 1, L⟩ : ZabbixSessionHeader), v)
  rw [loads_dumps]

theorem pack_json_some {v : PyJson} {f : List Nat} (h : ZabbixSession.pack_json v = some f) :
    (utf8Encode (Json.dumps v)).length < 18446744073709551616 ∧
    f = 90 :: 66 :: 88 :: 68 :: 1 ::
      (ZabbixSession.le64 (utf8Encode (Json.dumps v)).length ++ utf8Encode (Json.dumps v)) := by
  by_cases hb : (utf8Encode (Json.dumps v)).length < 18446744073709551616
  · rw [pack_json_eq v hb] at h
    exact ⟨hb, (Option.some.inj h).symm⟩
  · exfalso
    rw [ZabbixSession.pack_json, ZabbixSession.pack_header,
      if_neg (fun hc => hb hc.2)] at h
    simp at h

/-- C1: decoding the bytes produced by encoding any JSON-serializable value
`v` (including values containing non-ASCII text) yields a pair of the
original value and a header whose length field equals the byte length of
the UTF-8 JSON serialization of `v`; i.e.
`unpack_json (pack_json v)` round-trips. -/
theorem C1_pack_unpack_roundtrip (v : PyJson) (f : List Nat)
    (h : ZabbixSession.pack_json v = some f) :
    ZabbixSession.unpack_json f =
      .ok ({ header := ZabbixSession.HEADER, version := 1,
             length := (utf8Encode (Json.dumps v)).length }, v) := by
  obtain ⟨hb, rfl⟩ := pack_json_some h
  exact unpack_json_frame v hb

theorem C1_pack_unpack_roundtrip_witness :
    ZabbixSession.unpack_json
      [90, 66, 88, 68, 1, 11, 0, 0, 0, 0, 0, 0, 0,
       123, 34, 107, 34, 58, 32, 34, 195, 169, 34, 125] =
      .ok ({ header := ZabbixSession.HEADER, version := 1, length := 11 },
        .obj [(String.data ("k"), .str (String.data ("é")))]) :=
  C1_pack_unpack_roundtrip (.obj [(String.data ("k"), .str (String.data ("é")))]) _ rfl

/-- C2: the frame produced by `pack_json` begins with a header of exactly
13 bytes — the magic `b"ZBXD"`, the version byte 1 and an 8-byte unsigned
little-endian length — and the length field equals the exact byte count of
the payload that follows. -/
theorem C2_header_layout (v : PyJson) (f : List Nat)
    (h : ZabbixSession.pack_json v = some f) :
    f.length = 13 + (utf8Encode (Json.dumps v)).length ∧
    f.take 4 = ZabbixSession.HEADER ∧
    f.getD 4 0 = ZabbixSession.VERSION ∧
    ZabbixSession.decodeLE64 ((f.drop 5).take 8) = (utf8Encode (Json.dumps v)).length ∧
    f.drop 13 = utf8Encode (Json.dumps v) := by
  obtain ⟨hb, rfl⟩ := pack_json_some h
  set L := (utf8Encode (Json.dumps v)).length with hL
  set P := utf8Encode (Json.dumps v) with hP
  have htake8 : (ZabbixSession.le64 L ++ P).take 8 = ZabbixSession.le64 L := by
    have := List.take_left (ZabbixSession.le64 L) P
    rwa [le64_length] at this
  have hdrop8 : (ZabbixSession.le64 L ++ P).drop 8 = P := by
    have := List.drop_left (ZabbixSession.le64 L) P
    rwa [le64_length] at this
  refine ⟨?_, rfl, rfl, ?_, ?_⟩
  · simp only [List.length_cons, List.length_append, le64_length, hL, hP]
    omega
  · show ZabbixSession.decodeLE64 ((ZabbixSession.le64 L ++ P).take 8) = L
    rw [htake8, decodeLE64_le64 L hb]
  · show (ZabbixSession.le64 L ++ P).drop 8 = P
    exact hdrop8

theorem C2_header_layout_witness :
    List.length [90, 66, 88, 68, 1, 11, 0, 0, 0, 0, 0, 0, 0,
       123, 34, 107, 34, 58, 32, 34, 195, 169, 34, 125] = 13 + 11 ∧
    List.take 4 [90, 66, 88, 68, 1, 11, 0, 0, 0, 0, 0, 0, 0,
       123, 34, 107, 34, 58, 32, 34, 195, 169, 34, 125] = ZabbixSession.HEADER ∧
    List.getD [90, 66, 88, 68, 1, 11, 0, 0, 0, 0, 0, 0, 0,
       123, 34, 107, 34, 58, 32, 34, 195, 169, 34, 125] 4 0 = ZabbixSession.VERSION ∧
    ZabbixSession.decodeLE64 ((List.drop 5 [90, 66, 88, 68, 1, 11, 0, 0, 0, 0, 0, 0, 0,
       123, 34, 107, 34, 58, 32, 34, 195, 169, 34, 125]).take 8) = 11 ∧
    List.drop 13 [90, 66, 88, 68, 1, 11, 0, 0, 0, 0, 0, 0, 0,
       123, 34, 107, 34, 58, 32, 34, 195, 169, 34, 125] =
      utf8Encode (Json.dumps (.obj [(String.data ("k"), .str (String.data ("é")))])) :=
  C2_header_layout (.obj [(String.data ("k"), .str (String.data ("é")))]) _ rfl

theorem C3_magic_not_checked_counterexample :
    List.take 4 [65, 65, 65, 65, 1, 2, 0, 0, 0, 0, 0, 0, 0, 123, 125] ≠
      ZabbixSession.HEADER ∧
    ZabbixSession.unpack_json [65, 65, 65, 65, 1, 2, 0, 0, 0, 0, 0, 0, 0, 123, 125] =
      .ok ({ header := [65, 65, 65, 65], version := 1, length := 2 }, .obj []) :=
  ⟨by decide, rfl⟩

/-- C3 (amended): `unpack_json` fails with a format error exactly when the
input has fewer than 13 bytes.  With 13 or more bytes the header always
parses successfully — the 4 magic bytes are extracted, not compared against
`b"ZBXD"` — and `unpack_json` never raises a format error. -/
theorem C3_format_error_iff (b : List Nat) :
    (b.length < 13 → ZabbixSession.unpack_json b = .error .formatError) ∧
    (13 ≤ b.length →
      ZabbixSession.unpack_header b =
        .ok { header := b.take 4, version := b.getD 4 0,
              length := ZabbixSession.decodeLE64 ((b.drop 5).take 8) } ∧
      ZabbixSession.unpack_json b ≠ .error .formatError) := by
  constructor
  · intro hlt
    have h1 : ZabbixSession.unpack_header b = .error .formatError := by
      rw [ZabbixSession.unpack_header, if_pos hlt]
    rw [ZabbixSession.unpack_json, h1]
  · intro hge
    have h1 : ZabbixSession.unpack_header b =
        .ok { header := b.take 4, version := b.getD 4 0,
              length := ZabbixSession.decodeLE64 ((b.drop 5).take 8) } := by
      rw [ZabbixSession.unpack_header, if_neg (by omega)]
    refine ⟨h1, ?_⟩
    rw [ZabbixSession.unpack_json, h1]
    show (match utf8Decode ((b.drop 13).take (ZabbixSession.decodeLE64 ((b.drop 5).take 8))) with
      | none => Except.error SessionError.decodeError
      | some cs =>
        match Json.loads cs with
        | none => Except.error SessionError.jsonError
        | some v => Except.ok ((⟨b.take 4, b.getD 4 0,
            ZabbixSession.decodeLE64 ((b.drop 5).take 8)⟩ : ZabbixSessionHeader), v)) ≠
      Except.error SessionError.formatError
    cases utf8Decode ((b.drop 13).take (ZabbixSession.decodeLE64 ((b.drop 5).take 8))) with
    | none => simp
    | some cs =>
      cases h2 : Json.loads cs with
      | none => simp [h2]
      | some v => simp [h2]

theorem C3_format_error_iff_witness :
    ZabbixSession.unpack_json [90, 66, 88] = .error .formatError ∧
    ZabbixSession.unpack_header [65, 65, 65, 65, 1, 2, 0, 0, 0, 0, 0, 0, 0, 123, 125] =
      .ok { header := [65, 65, 65, 65], version := 1, length := 2 } :=
  ⟨(C3_format_error_iff [90, 66, 88]).1 (by decide),
   (((C3_format_error_iff [65, 65, 65, 65, 1, 2, 0, 0, 0, 0, 0, 0, 0, 123, 125]).2
      (by decide)).1).trans (by rfl)⟩

/-! ## Session operation claims -/

theorem unpack_json_ne_requestError (b : List Nat) :
    ZabbixSession.unpack_json b ≠ .error .requestError := by
  by_cases hlt : b.length < 13
  · have h1 : ZabbixSession.unpack_header b = .error .formatError := by
      rw [ZabbixSession.unpack_header, if_pos hlt]
    rw [ZabbixSession.unpack_json, h1]
    simp
  · have h1 : ZabbixSession.unpack_header b =
        .ok { header := b.take 4, version := b.getD 4 0,
              length := ZabbixSession.decodeLE64 ((b.drop 5).take 8) } := by
      rw [ZabbixSession.unpack_header, if_neg hlt]
    rw [ZabbixSession.unpack_json, h1]
    show (match utf8Decode ((b.drop 13).take (ZabbixSession.decodeLE64 ((b.drop 5).take 8))) with
      | none => Except.error SessionError.decodeError
      | some cs =>
        match Json.loads cs with
        | none => Except.error SessionError.jsonError
        | some v => Except.ok ((⟨b.take 4, b.getD 4 0,
            ZabbixSession.decodeLE64 ((b.drop 5).take 8)⟩ : ZabbixSessionHeader), v)) ≠
      Except.error SessionError.requestError
    cases utf8Decode ((b.drop 13).take (ZabbixSession.decodeLE64 ((b.drop 5).take 8))) with
    | none => simp
    | some cs =>
      cases h2 : Json.loads cs with
      | none => simp [h2]
      | some v => simp [h2]

/-- C4: when the single socket read inside `request` returns zero bytes,
`request` raises `RequestError`; when the read returns at least one byte,
no `RequestError` is raised at that step (any later failure is a different
error). -/
theorem C4_request_zero_read (data : PyJson)
    (hp : (ZabbixSession.pack_json data).isSome = true) :
    ZabbixSession.request data [] = .error .requestError ∧
    ∀ recv : List Nat, recv ≠ [] →
      ZabbixSession.request data recv ≠ .error .requestError := by
  obtain ⟨f, hf⟩ := Option.isSome_iff_exists.mp hp
  constructor
  · rw [ZabbixSession.request, hf]
    rfl
  · intro recv hr
    rw [ZabbixSession.request, hf]
    show (if recv = [] then Except.error SessionError.requestError
      else match ZabbixSession.unpack_json recv with
        | .error e => .error e
        | .ok (h, d) => .ok (ZabbixSessionResponse.mk h d)) ≠
      Except.error SessionError.requestError
    rw [if_neg hr]
    cases hu : ZabbixSession.unpack_json recv with
    | error e =>
      have hne : e ≠ SessionError.requestError := by
        intro he
        exact unpack_json_ne_requestError recv (by rw [hu, he])
      simp [hne]
    | ok p =>
      obtain ⟨hh, dd⟩ := p
      simp

theorem C4_request_zero_read_witness :
    ZabbixSession.request PyJson.null [] = .error .requestError ∧
    ZabbixSession.request PyJson.null [1] ≠ .error .requestError :=
  ⟨(C4_request_zero_read PyJson.null (by rfl)).1,
   (C4_request_zero_read PyJson.null (by rfl)).2 [1] (by decide)⟩

theorem send_data_parse_obj (h : ZabbixSessionHeader) (kvs : List (List Char × PyJson))
    (s : List Char)
    (hinfo : jlookup (String.data ("info")) kvs = some (.str s) ∨
      (jlookup (String.data ("info")) kvs = none ∧ s = [])) :
    ZabbixSession.send_data_parse h (.obj kvs) = .ok
      { header := h, response := jlookup (String.data ("response")) kvs, data := .obj kvs,
        processed := (ZabbixSession.searchInfo s).map ZabbixSession.InfoGroups.processed,
        failed := (ZabbixSession.searchInfo s).map ZabbixSession.InfoGroups.failed,
        total := (ZabbixSession.searchInfo s).map ZabbixSession.InfoGroups.total,
        seconds_spent :=
          (ZabbixSession.searchInfo s).map ZabbixSession.InfoGroups.seconds_spent } := by
  rcases hinfo with hsome | ⟨hnone, rfl⟩
  · rw [ZabbixSession.send_data_parse, hsome]
  · rw [ZabbixSession.send_data_parse, hnone]

/-- C5: `send_data` applies the fixed info pattern to the decoded payload's
`"info"` field (the empty string when the field is absent).  When the
pattern does not match, the returned `ZabbixSenderResponse` has
`processed`, `failed`, `total` and `seconds_spent` all `None` and no
exception is raised; when it matches, those four fields hold the captured
substrings verbatim (a round-trip-safe representation). -/
theorem C5_send_data_info (h : ZabbixSessionHeader) (kvs : List (List Char × PyJson))
    (s : List Char)
    (hinfo : jlookup (String.data ("info")) kvs = some (.str s) ∨
      (jlookup (String.data ("info")) kvs = none ∧ s = [])) :
    (ZabbixSession.searchInfo s = none →
      ZabbixSession.send_data_parse h (.obj kvs) = .ok
        { header := h, response := jlookup (String.data ("response")) kvs, data := .obj kvs,
          processed := none, failed := none, total := none, seconds_spent := none }) ∧
    (∀ g : ZabbixSession.InfoGroups, ZabbixSession.searchInfo s = some g →
      ZabbixSession.send_data_parse h (.obj kvs) = .ok
        { header := h, response := jlookup (String.data ("response")) kvs, data := .obj kvs,
          processed := some g.processed, failed := some g.failed, total := some g.total,
          seconds_spent := some g.seconds_spent }) := by
  have key := send_data_parse_obj h kvs s hinfo
  constructor
  · intro h0
    rw [key, h0]
    rfl
  · intro g hg
    rw [key, hg]
    rfl

theorem C5_send_data_info_witness :
    ZabbixSession.send_data_parse { header := ZabbixSession.HEADER, version := 1, length := 0 }
      (.obj [(String.data ("info"),
        .str (String.data ("processed: 2; failed: 0; total: 2; seconds spent: 0.000123")))]) =
      .ok { header := { header := ZabbixSession.HEADER, version := 1, length := 0 },
            response := none,
            data := .obj [(String.data ("info"),
              .str (String.data ("processed: 2; failed: 0; total: 2; seconds spent: 0.000123")))],
            processed := some (String.data ("2")), failed := some (String.data ("0")),
            total := some (String.data ("2")),
            seconds_spent := some (String.data ("0.000123")) } :=
  (C5_send_data_info { header := ZabbixSession.HEADER, version := 1, length := 0 }
    [(String.data ("info"),
      .str (String.data ("processed: 2; failed: 0; total: 2; seconds spent: 0.000123")))]
    (String.data ("processed: 2; failed: 0; total: 2; seconds spent: 0.000123"))
    (Or.inl rfl)).2
    { processed := String.data ("2"), failed := String.data ("0"),
      total := String.data ("2"), seconds_spent := String.data ("0.000123") } rfl

/-- C6: `ZabbixSender.send` never removes or clears buffered data points:
after collecting two points, sending, collecting a third and sending
again, the second send transmits all three points (and leaves the sender
unchanged). -/
theorem C6_sender_buffer_retained (server : List Char) (port : Option Nat)
    (h1 k1 h2 k2 h3 k3 : List Char) (v1 v2 v3 : PyJson)
    (ts1 ts2 ts3 : Option Int) (n1 n2 n3 sn1 sn2 : Int) (rc1 rc2 : List Nat) :
    let p1 := ZabbixSender.data_point h1 k1 v1 (get_time ts1 n1)
    let p2 := ZabbixSender.data_point h2 k2 v2 (get_time ts2 n2)
    let p3 := ZabbixSender.data_point h3 k3 v3 (get_time ts3 n3)
    let s2 := ((ZabbixSender.init server port).collect h1 k1 v1 ts1 n1).collect h2 k2 v2 ts2 n2
    let s4 := (s2.send sn1 rc1).1.collect h3 k3 v3 ts3 n3
    (s4.send sn2 rc2).1 = s4 ∧
    s4.data = [p1, p2, p3] ∧
    (s4.send sn2 rc2).2 = ZabbixSession.send_data [p1, p2, p3] none sn2 rc2 := by
  intro p1 p2 p3 s2 s4
  have hdata : s4.data = [p1, p2, p3] := by
    simp [s4, s2, ZabbixSender.init, ZabbixSender.collect, ZabbixSender.send]
  refine ⟨rfl, hdata, ?_⟩
  show ZabbixSession.send_data s4.data none sn2 rc2 =
    ZabbixSession.send_data [p1, p2, p3] none sn2 rc2
  rw [hdata]

theorem items_of_objs (ms : List (List (List Char × PyJson))) :
    ZabbixSession.items_of (ms.map PyJson.obj) = .ok (ms.map (fun m =>
      { key := jlookup (String.data ("key")) m,
        delay := jlookup (String.data ("delay")) m,
        lastlogsize := jlookup (String.data ("lastlogsize")) m,
        mtime := jlookup (String.data ("mtime")) m })) := by
  induction ms with
  | nil => rfl
  | cons m ms ih =>
    simp [ZabbixSession.items_of, ZabbixSession.check_item_of, ih]

/-- C7: `get_active_checks` fails with a `KeyError` when the decoded
payload has no `"data"` key; otherwise it returns one `ZabbixCheckItem`
per element of `data["data"]`, in order, where each of `key`, `delay`,
`lastlogsize` and `mtime` missing from an element becomes `None` rather
than raising an error. -/
theorem C7_get_active_checks (h : ZabbixSessionHeader) (kvs : List (List Char × PyJson)) :
    (jlookup (String.data ("data")) kvs = none →
      ZabbixSession.get_active_checks_parse h (.obj kvs) = .error .keyError) ∧
    (∀ ms : List (List (List Char × PyJson)),
      jlookup (String.data ("data")) kvs = some (.arr (ms.map PyJson.obj)) →
      ZabbixSession.get_active_checks_parse h (.obj kvs) = .ok
        { header := h, response := jlookup (String.data ("response")) kvs, data := .obj kvs,
          items := ms.map (fun m =>
            { key := jlookup (String.data ("key")) m,
              delay := jlookup (String.data ("delay")) m,
              lastlogsize := jlookup (String.data ("lastlogsize")) m,
              mtime := jlookup (String.data ("mtime")) m }) }) := by
  constructor
  · intro h0
    rw [ZabbixSession.get_active_checks_parse, h0]
  · intro ms h0
    rw [ZabbixSession.get_active_checks_parse, h0]
    simp [ZabbixSession.iter_elems, items_of_objs]

theorem C7_get_active_checks_witness :
    ZabbixSession.get_active_checks_parse
      { header := ZabbixSession.HEADER, version := 1, length := 0 } (.obj []) =
      .error .keyError ∧
    ZabbixSession.get_active_checks_parse
      { header := ZabbixSession.HEADER, version := 1, length := 0 }
      (.obj [(String.data ("response"), .str (String.data ("success"))),
             (String.data ("data"), .arr [.obj [(String.data ("key"),
               .str (String.data ("agent.ping"))), (String.data ("delay"), .int 30)]])]) =
      .ok { header := { header := ZabbixSession.HEADER, version := 1, length := 0 },
            response := some (.str (String.data ("success"))),
            data := .obj [(String.data ("response"), .str (String.data ("success"))),
             (String.data ("data"), .arr [.obj [(String.data ("key"),
               .str (String.data ("agent.ping"))), (String.data ("delay"), .int 30)]])],
            items := [{ key := some (.str (String.data ("agent.ping"))),
                        delay := some (.int 30), lastlogsize := none, mtime := none }] } :=
  ⟨(C7_get_active_checks { header := ZabbixSession.HEADER, version := 1, length := 0 } []).1
      rfl,
   (C7_get_active_checks { header := ZabbixSession.HEADER, version := 1, length := 0 }
      [(String.data ("response"), .str (String.data ("success"))),
       (String.data ("data"), .arr [.obj [(String.data ("key"),
         .str (String.data ("agent.ping"))), (String.data ("delay"), .int 30)]])]).2
      [[(String.data ("key"), .str (String.data ("agent.ping"))),
        (String.data ("delay"), .int 30)]] rfl⟩

/-- C9: scoped use of a session closes the socket on every exit path: for
any initial state and any body — whether it returns a value or an
exception, including a `request` failure mid-call — the state after the
`with` block has the socket closed and the session disconnected, and the
body's outcome is propagated unchanged. -/
theorem C9_with_session_closes {E A : Type} (s0 : SessionConn)
    (body : SessionConn → Except E A × SessionConn) :
    ((with_session s0 body).2.closed = true ∧ (with_session s0 body).2.connected = false) ∧
    (with_session s0 body).1 = (body s0.enter).1 :=
  ⟨⟨rfl, rfl⟩, rfl⟩

/-- C10: a falsy timestamp is treated as "not supplied": `get_time` maps
an explicit timestamp 0 to the current time, so `collect` and `send_data`
called with timestamp 0 use the current Unix time as the clock, not 0 —
the epoch timestamp 0 cannot be recorded. -/
theorem C10_zero_timestamp_means_now (now : Int) (s : ZabbixSender)
    (host key : List Char) (value : PyJson) (points : List PyJson) (recv : List Nat) :
    get_time (some 0) now = now ∧
    (s.collect host key value (some 0) now).data =
      s.data ++ [ZabbixSender.data_point host key value now] ∧
    ZabbixSession.send_data points (some 0) now recv =
      ZabbixSession.send_data points none now recv :=
  ⟨rfl, rfl, rfl⟩

/-- C8: when the header declares a payload length `L` but fewer than `L`
payload bytes follow the 13-byte header, `unpack_json` uses the available
payload bytes as-is: no short-read error is raised at the framing layer
(in particular, never a format error), and the result is exactly the
UTF-8 decode and JSON parse of the truncated payload. -/
theorem C8_short_read_uses_available (b : List Nat) (L : Nat)
    (hlen : 13 ≤ b.length)
    (hL : ZabbixSession.decodeLE64 ((b.drop 5).take 8) = L)
    (hshort : b.length - 13 < L) :
    ZabbixSession.unpack_json b ≠ .error .formatError ∧
    ZabbixSession.unpack_json b =
      (match utf8Decode (b.drop 13) with
       | none => .error .decodeError
       | some cs =>
         match Json.loads cs with
         | none => .error .jsonError
         | some v => .ok ({ header := b.take 4, version := b.getD 4 0, length := L }, v)) := by
  have h1 : ZabbixSession.unpack_header b =
      .ok { header := b.take 4, version := b.getD 4 0, length := L } := by
    rw [ZabbixSession.unpack_header, if_neg (by omega), hL]
  have htk : (b.drop 13).take L = b.drop 13 := by
    refine List.take_of_length_le ?_
    rw [List.length_drop]
    omega
  have hmain : ZabbixSession.unpack_json b =
      (match utf8Decode (b.drop 13) with
       | none => .error .decodeError
       | some cs =>
         match Json.loads cs with
         | none => .error .jsonError
         | some v => .ok ({ header := b.take 4, version := b.getD 4 0, length := L }, v)) := by
    rw [ZabbixSession.unpack_json, h1]
    show (match utf8Decode ((b.drop 13).take L) with
      | none => Except.error SessionError.decodeError
      | some cs =>
        match Json.loads cs with
        | none => Except.error SessionError.jsonError
        | some v => Except.ok ((⟨b.take 4, b.getD 4 0, L⟩ : ZabbixSessionHeader), v)) = _
    rw [htk]
  refine ⟨?_, hmain⟩
  rw [hmain]
  cases utf8Decode (b.drop 13) with
  | none => simp
  | some cs =>
    cases h2 : Json.loads cs with
    | none => simp [h2]
    | some v => simp [h2]

theorem C8_short_read_uses_available_witness :
    ZabbixSession.unpack_json [90, 66, 88, 68, 1, 10, 0, 0, 0, 0, 0, 0, 0, 34, 97, 98] =
      .error .jsonError :=
  ((C8_short_read_uses_available [90, 66, 88, 68, 1, 10, 0, 0, 0, 0, 0, 0, 0, 34, 97, 98] 10
    (by decide) (by decide) (by decide)).2).trans (by rfl)
